import Mathlib

/-!
# Configuration resolver of the FHIR authentication service

A shallow embedding of `src/config/index.js` (`parseCorsParameter`, `getConfig`)
together with executable models of the platform functions `getConfig` calls:
`JSON.parse`, the `env-schema` validator applied to the schema written in the
source, and `fs.promises.readFile`.

Conventions of the embedding

* A JavaScript string is a Lean `String`.  The only JavaScript strings that are
  not Lean strings contain an unpaired UTF-16 surrogate; inside `JSON.parse` such
  a code unit (which only a `\u` escape can produce) is read as U+FFFD.
* A JavaScript number is a `JsNumber`: `NaN`, an infinity, or a finite binary64
  value, kept as the dyadic rational `± num / 2 ^ k` it denotes.  A numeric
  literal is rounded to the nearest binary64 value, ties to even.
* A thrown exception is the `error` side of `Except Thrown`.
-/

namespace Ydh

/-! ## JavaScript values -/

/-- An ECMAScript Number: `NaN`, `±Infinity`, or the finite binary64 value
`(-1)^neg · num / 2^k`. -/
inductive JsNumber where
  | nan
  | inf (neg : Bool)
  | fin (neg : Bool) (num : Nat) (k : Nat)
  deriving DecidableEq

/-- Halving loop of `bitLength`; `fuel` bounds the number of halvings. -/
def bitLengthAux : Nat → Nat → Nat → Nat
  | 0, _, acc => acc
  | fuel + 1, n, acc => if n = 0 then acc else bitLengthAux fuel (n / 2) (acc + 1)

/-- Number of binary digits of `n` (`0` for `0`). -/
def bitLength (n : Nat) : Nat := bitLengthAux n n 0

/-- Lowest terms of the dyadic rational `num / 2^k`. -/
def dyadic : Nat → Nat → Nat × Nat
  | num, 0 => (num, 0)
  | num, k + 1 => if num % 2 = 0 then dyadic (num / 2) k else (num, k + 1)

/-- The binary64 value nearest to the rational `n / d` (with `d` positive), ties
to even: 53 significant bits, least exponent `-1074`, and an infinity when the
rounded value reaches `2^1024`. -/
def roundBinary64 (neg : Bool) (n d : Nat) : JsNumber :=
  if n = 0 then .fin neg 0 0 else
  let e0 : Int := (bitLength n : Int) - (bitLength d : Int) - 53
  let q0 := if 0 ≤ e0 then n / (d * 2 ^ e0.toNat) else n * 2 ^ (-e0).toNat / d
  let e1 : Int := if q0 < 2 ^ 53 then e0 else e0 + 1
  let e : Int := max e1 (-1074)
  let num := if 0 ≤ e then n else n * 2 ^ (-e).toNat
  let den := if 0 ≤ e then d * 2 ^ e.toNat else d
  let q := num / den
  let r := num % den
  let q1 := if den < 2 * r ∨ (2 * r = den ∧ q % 2 = 1) then q + 1 else q
  if 0 ≤ e then
    if 1024 < bitLength q1 + e.toNat then .inf neg else .fin neg (q1 * 2 ^ e.toNat) 0
  else
    let p := dyadic q1 (-e).toNat
    .fin neg p.1 p.2

/-- The Number denoted by the decimal `(-1)^neg · mant · 10^exp`. -/
def decimal (neg : Bool) (mant : Nat) (exp : Int) : JsNumber :=
  if 0 ≤ exp then roundBinary64 neg (mant * 10 ^ exp.toNat) 1
  else roundBinary64 neg mant (10 ^ (-exp).toNat)

/-- The values `JSON.parse` can return, plus `undefined`.  An object is its list
of own properties in creation order. -/
inductive JsValue where
  | undefined
  | null
  | bool (b : Bool)
  | number (n : JsNumber)
  | string (s : String)
  | array (items : List JsValue)
  | object (props : List (String × JsValue))

/-- One entry of the validator's `errors` array: the failing keyword, the
property it concerns and the message text. -/
structure AjvError where
  keyword : String
  property : String
  message : String
  deriving DecidableEq

/-- What `getConfig` can throw. -/
inductive Thrown where
  /-- The `Error` thrown by `env-schema`, with its message and its `errors`. -/
  | validation (message : String) (errors : List AjvError)
  /-- A `SyntaxError` raised by `JSON.parse` (engine-specific text not modelled). -/
  | syntaxError
  /-- A `TypeError` raised by the engine (engine-specific text not modelled). -/
  | typeError
  /-- An `Error(message)` thrown by the source itself. -/
  | error (message : String)
  deriving DecidableEq

/-- A value of an environment property declared `anyOf [string, null]`: the
property is missing (`undefined`), `null`, or a string. -/
inductive EnvStr where
  | undefined
  | null
  | str (s : String)
  deriving DecidableEq

/-- The same value seen as a general JavaScript value. -/
def EnvStr.toJs : EnvStr → JsValue
  | .undefined => .undefined
  | .null => .null
  | .str s => .string s

/-- ECMAScript `ToBoolean` on the values of the embedding. -/
def JsValue.truthy : JsValue → Bool
  | .undefined => false
  | .null => false
  | .bool b => b
  | .number .nan => false
  | .number (.inf _) => true
  | .number (.fin _ num _) => num != 0
  | .string s => s != ""
  | .array _ => true
  | .object _ => true

/-- ECMAScript `ToBoolean` on an environment property. -/
def EnvStr.truthy : EnvStr → Bool
  | .undefined => false
  | .null => false
  | .str s => s != ""

/-- ECMAScript `ToString` on an environment property. -/
def EnvStr.toText : EnvStr → String
  | .undefined => "undefined"
  | .null => "null"
  | .str s => s

/-- The JavaScript `a || b`. -/
def jsOr (a b : JsValue) : JsValue := if a.truthy then a else b

/-- The JavaScript `a || b` on strings. -/
def strOr (a b : String) : String := if a != "" then a else b

/-! ## `JSON.parse` -/

namespace JSON

/-- Lexical tokens of JSON text. -/
inductive Token where
  | lbrace | rbrace | lbrack | rbrack | colon | comma
  | str (s : String)
  | num (n : JsNumber)
  | tru | fls | nul

/-- UTF-16 code units of a character. -/
def encode (c : Char) : List Nat :=
  if c.toNat < 0x10000 then [c.toNat]
  else [0xD800 + (c.toNat - 0x10000) / 0x400, 0xDC00 + (c.toNat - 0x10000) % 0x400]

/-- Characters of a sequence of UTF-16 code units; an unpaired surrogate is read
as U+FFFD. -/
def decode : List Nat → List Char
  | [] => []
  | [u] => [if 0xD800 ≤ u ∧ u < 0xE000 then Char.ofNat 0xFFFD else Char.ofNat u]
  | u :: v :: rest =>
    if 0xD800 ≤ u ∧ u < 0xDC00 ∧ 0xDC00 ≤ v ∧ v < 0xE000 then
      Char.ofNat (0x10000 + (u - 0xD800) * 0x400 + (v - 0xDC00)) :: decode rest
    else if 0xD800 ≤ u ∧ u < 0xE000 then Char.ofNat 0xFFFD :: decode (v :: rest)
    else Char.ofNat u :: decode (v :: rest)

/-- Value of a decimal digit string. -/
def digitsVal (cs : List Char) : Nat :=
  cs.foldl (fun n c => 10 * n + (c.toNat - 48)) 0

/-- Value of a hexadecimal digit, if the character is one. -/
def hexVal (c : Char) : Option Nat :=
  if 48 ≤ c.toNat ∧ c.toNat ≤ 57 then some (c.toNat - 48)
  else if 97 ≤ c.toNat ∧ c.toNat ≤ 102 then some (c.toNat - 87)
  else if 65 ≤ c.toNat ∧ c.toNat ≤ 70 then some (c.toNat - 55)
  else none

/-- The JSON `number` production: `-? (0 | [1-9][0-9]*) (. [0-9]+)? ([eE] [+-]? [0-9]+)?`,
read against the whole of `cs`. -/
def number (cs : List Char) : Option JsNumber :=
  let (neg, cs1) := match cs with
    | '-' :: r => (true, r)
    | _ => (false, cs)
  let (ip, cs2) := cs1.span Char.isDigit
  if ip = [] ∨ (1 < ip.length ∧ ip.head? = some '0') then none else
  let frac : Option (List Char × List Char) := match cs2 with
    | '.' :: r =>
      let (fp, r2) := r.span Char.isDigit
      if fp = [] then none else some (fp, r2)
    | _ => some ([], cs2)
  match frac with
  | none => none
  | some (fp, cs3) =>
    let mant := digitsVal (ip ++ fp)
    match cs3 with
    | [] => some (decimal neg mant (- (fp.length : Int)))
    | e :: r =>
      if e = 'e' ∨ e = 'E' then
        let (eneg, r1) := match r with
          | '-' :: t => (true, t)
          | '+' :: t => (false, t)
          | _ => (false, r)
        if r1 = [] ∨ ¬ r1.all Char.isDigit then none else
        let ev : Int := digitsVal r1
        some (decimal neg mant ((if eneg then - ev else ev) - (fp.length : Int)))
      else none

/-- The literal names `true`, `false`, `null`. -/
def word (cs : List Char) : Option Token :=
  if cs = "true".toList then some .tru
  else if cs = "false".toList then some .fls
  else if cs = "null".toList then some .nul
  else none

/-- State of the lexer between two characters.  Accumulated characters and code
units are kept in reverse. -/
inductive Lex where
  | idle
  | str (units : List Nat)
  | esc (units : List Nat)
  | hex (units : List Nat) (digits : List Nat)
  | num (cs : List Char)
  | word (cs : List Char)

/-- A character that can occur inside a JSON number. -/
def numChar (c : Char) : Bool :=
  c.isDigit || c == '+' || c == '-' || c == '.' || c == 'e' || c == 'E'

/-- One character read between tokens; `out` is the reversed token list. -/
def idleStep (out : List Token) (c : Char) : Option (Lex × List Token) :=
  if c = ' ' ∨ c = '\t' ∨ c = '\n' ∨ c = '\r' then some (.idle, out)
  else if c = '{' then some (.idle, .lbrace :: out)
  else if c = '}' then some (.idle, .rbrace :: out)
  else if c = '[' then some (.idle, .lbrack :: out)
  else if c = ']' then some (.idle, .rbrack :: out)
  else if c = ':' then some (.idle, .colon :: out)
  else if c = ',' then some (.idle, .comma :: out)
  else if c = '"' then some (.str [], out)
  else if c = '-' ∨ c.isDigit then some (.num [c], out)
  else if c.isLower then some (.word [c], out)
  else none

/-- One step of the lexer. -/
def lexStep (st : Lex × List Token) (c : Char) : Option (Lex × List Token) :=
  match st with
  | (.idle, out) => idleStep out c
  | (.str units, out) =>
    if c = '"' then some (.idle, .str (String.mk (decode units.reverse)) :: out)
    else if c = '\\' then some (.esc units, out)
    else if c.toNat < 0x20 then none
    else some (.str ((encode c).reverse ++ units), out)
  | (.esc units, out) =>
    if c = '"' ∨ c = '\\' ∨ c = '/' then some (.str (c.toNat :: units), out)
    else if c = 'b' then some (.str (8 :: units), out)
    else if c = 'f' then some (.str (12 :: units), out)
    else if c = 'n' then some (.str (10 :: units), out)
    else if c = 'r' then some (.str (13 :: units), out)
    else if c = 't' then some (.str (9 :: units), out)
    else if c = 'u' then some (.hex units [], out)
    else none
  | (.hex units digits, out) =>
    match hexVal c with
    | none => none
    | some d =>
      if digits.length = 3 then
        some (.str ((digits ++ [d]).foldl (fun n x => 16 * n + x) 0 :: units), out)
      else some (.hex units (digits ++ [d]), out)
  | (.num cs, out) =>
    if numChar c then some (.num (c :: cs), out)
    else match number cs.reverse with
      | none => none
      | some n => idleStep (.num n :: out) c
  | (.word cs, out) =>
    if c.isLower then some (.word (c :: cs), out)
    else match word cs.reverse with
      | none => none
      | some t => idleStep (t :: out) c

/-- Run the lexer over the text. -/
def lexRun : Lex × List Token → List Char → Option (Lex × List Token)
  | st, [] => some st
  | st, c :: cs =>
    match lexStep st c with
    | none => none
    | some st1 => lexRun st1 cs

/-- The tokens of a JSON text, or `none` when the text has a lexical error. -/
def tokens (cs : List Char) : Option (List Token) :=
  match lexRun (.idle, []) cs with
  | some (.idle, out) => some out.reverse
  | some (.num ds, out) => (number ds.reverse).map fun n => (Token.num n :: out).reverse
  | some (.word ws, out) => (word ws.reverse).map fun t => (t :: out).reverse
  | _ => none

/-- An array or object under construction. -/
inductive Frame where
  | arr (items : List JsValue)
  | obj (props : List (String × JsValue)) (key : Option String)

/-- What the parser expects next. -/
inductive Expect where
  | value
  | valueOrClose
  | key
  | keyOrClose
  | colon
  | separator
  | done

/-- Define property `k` of an object under construction: a repeated key keeps its
place and takes the later value. -/
def setProp : List (String × JsValue) → String → JsValue → List (String × JsValue)
  | [], k, v => [(k, v)]
  | (k1, v1) :: rest, k, v =>
    if k1 = k then (k, v) :: rest else (k1, v1) :: setProp rest k v

/-- Parser state: the open containers, what comes next, and the finished
top-level value. -/
structure PState where
  stack : List Frame
  expect : Expect
  result : Option JsValue

/-- A value has been completed below the containers of `stack`. -/
def complete (stack : List Frame) (v : JsValue) : Option PState :=
  match stack with
  | [] => some ⟨[], .done, some v⟩
  | .arr items :: rest => some ⟨.arr (v :: items) :: rest, .separator, none⟩
  | .obj props (some k) :: rest => some ⟨.obj (setProp props k v) none :: rest, .separator, none⟩
  | .obj _ none :: _ => none

/-- A token read where a value may start. -/
def valueStep (stack : List Frame) : Token → Option PState
  | .str s => complete stack (.string s)
  | .num n => complete stack (.number n)
  | .tru => complete stack (.bool true)
  | .fls => complete stack (.bool false)
  | .nul => complete stack .null
  | .lbrack => some ⟨.arr [] :: stack, .valueOrClose, none⟩
  | .lbrace => some ⟨.obj [] none :: stack, .keyOrClose, none⟩
  | _ => none

/-- A token read where a property name may start. -/
def keyStep (stack : List Frame) : Token → Option PState
  | .str k =>
    match stack with
    | .obj props _ :: rest => some ⟨.obj props (some k) :: rest, .colon, none⟩
    | _ => none
  | _ => none

/-- One step of the parser. -/
def parseStep (st : PState) (t : Token) : Option PState :=
  match st.expect, t, st.stack with
  | .value, t, stack => valueStep stack t
  | .valueOrClose, .rbrack, .arr _ :: rest => complete rest (.array [])
  | .valueOrClose, t, stack => valueStep stack t
  | .key, t, stack => keyStep stack t
  | .keyOrClose, .rbrace, .obj _ _ :: rest => complete rest (.object [])
  | .keyOrClose, t, stack => keyStep stack t
  | .colon, .colon, stack => some ⟨stack, .value, none⟩
  | .separator, .comma, .arr items :: rest => some ⟨.arr items :: rest, .value, none⟩
  | .separator, .rbrack, .arr items :: rest => complete rest (.array items.reverse)
  | .separator, .comma, .obj props k :: rest => some ⟨.obj props k :: rest, .key, none⟩
  | .separator, .rbrace, .obj props _ :: rest => complete rest (.object props)
  | _, _, _ => none

/-- Run the parser over the tokens. -/
def parseRun : PState → List Token → Option PState
  | st, [] => some st
  | st, t :: ts =>
    match parseStep st t with
    | none => none
    | some st1 => parseRun st1 ts

/-- The value denoted by a JSON text, or `none` when the text is not valid JSON. -/
def value (text : String) : Option JsValue :=
  match tokens text.toList with
  | none => none
  | some ts =>
    match parseRun ⟨[], .value, none⟩ ts with
    | some ⟨[], .done, some v⟩ => some v
    | _ => none

/-- `JSON.parse(x)` for an environment property `x`: the argument is converted to
a string first, the text is parsed, and a `SyntaxError` is thrown when it is not
valid JSON. -/
def parse (x : EnvStr) : Except Thrown JsValue :=
  match value x.toText with
  | some v => .ok v
  | none => .error .syntaxError

end JSON

/-! ## String to number conversion -/

/-- The characters of `StrWhiteSpaceChar` (white space and line terminators). -/
def isStrWhiteSpace (c : Char) : Bool :=
  let n := c.toNat
  n == 9 || n == 10 || n == 11 || n == 12 || n == 13 || n == 32 || n == 0xA0
    || n == 0x1680 || (0x2000 ≤ n && n ≤ 0x200A) || n == 0x2028 || n == 0x2029
    || n == 0x202F || n == 0x205F || n == 0x3000 || n == 0xFEFF

/-- Value of a non-empty digit string in the given radix. -/
def radixVal (radix : Nat) (cs : List Char) : Option Nat :=
  if cs = [] then none
  else cs.foldl
    (fun acc c =>
      match acc, JSON.hexVal c with
      | some n, some d => if d < radix then some (radix * n + d) else none
      | _, _ => none)
    (some 0)

/-- The `StrDecimalLiteral` production: an optional sign, then `Infinity` or
decimal digits with an optional fraction and exponent. -/
def strDecimal (cs : List Char) : JsNumber :=
  let (neg, r) := match cs with
    | '+' :: t => (false, t)
    | '-' :: t => (true, t)
    | _ => (false, cs)
  if r = "Infinity".toList then .inf neg else
  let (ip, r1) := r.span Char.isDigit
  let (fp, r2) := match r1 with
    | '.' :: t => t.span Char.isDigit
    | _ => ([], r1)
  if ip = [] ∧ fp = [] then .nan else
  let mant := JSON.digitsVal (ip ++ fp)
  match r2 with
  | [] => decimal neg mant (- (fp.length : Int))
  | e :: t =>
    if e = 'e' ∨ e = 'E' then
      let (eneg, t1) := match t with
        | '-' :: u => (true, u)
        | '+' :: u => (false, u)
        | _ => (false, t)
      if t1 = [] ∨ ¬ t1.all Char.isDigit then .nan else
      let ev : Int := JSON.digitsVal t1
      decimal neg mant ((if eneg then - ev else ev) - (fp.length : Int))
    else .nan

/-- ECMAScript `StringToNumber` (the unary `+` on a string): surrounding white
space is dropped, the empty string is `0`, then a hexadecimal, octal or binary
integer or a decimal literal is read and rounded to binary64; anything else is
`NaN`. -/
def toNumber (s : String) : JsNumber :=
  let t := ((s.toList.dropWhile isStrWhiteSpace).reverse.dropWhile isStrWhiteSpace).reverse
  let radix (r : Nat) (ds : List Char) : JsNumber :=
    match radixVal r ds with
    | some n => roundBinary64 false n 1
    | none => .nan
  match t with
  | [] => .fin false 0 0
  | '0' :: 'x' :: ds => radix 16 ds
  | '0' :: 'X' :: ds => radix 16 ds
  | '0' :: 'o' :: ds => radix 8 ds
  | '0' :: 'O' :: ds => radix 8 ds
  | '0' :: 'b' :: ds => radix 2 ds
  | '0' :: 'B' :: ds => radix 2 ds
  | _ => strDecimal t

/-- The number is an integer greater than zero. -/
def JsNumber.isPositiveInteger : JsNumber → Bool
  | .nan => false
  | .inf _ => false
  | .fin neg num k => !neg && num != 0 && num % 2 ^ k == 0

/-! ## `env-schema`

`envSchema({ dotenv: true, schema })` merges the `.env` file into `process.env`
and validates the result with Ajv configured with `allErrors`,
`removeAdditional`, `useDefaults` and `coerceTypes`; on failure it throws an
`Error` whose message joins the messages of all collected errors and whose
`errors` property holds them.  The raw environment `raw` below is `process.env`
after the `.env` file has been merged: every value is a string.  Message texts
are those of Ajv 6, which `env-schema` 2 bundles. -/

/-- The subschemas used in the source's schema. -/
inductive PropSchema where
  /-- Written `S.string()` in the source. -/
  | string
  /-- Written `S.number()` in the source. -/
  | number
  /-- Written `S.anyOf([S.string(), S.null()])` in the source. -/
  | nullableString
  /-- Written `S.anyOf([S.string().format("uri"), S.null()])` in the source. -/
  | nullableUri
  /-- Written `S.string().enum(allowed).default(dflt)` in the source. -/
  | enumDefault (allowed : List String) (dflt : String)
  /-- Written `S.string().default(dflt)` in the source. -/
  | stringDefault (dflt : String)

/-- The properties of the schema passed to `envSchema`, in source order. -/
def schema : List (String × PropSchema) :=
  [ ("NODE_ENV", .string),
    ("SERVICE_HOST", .string),
    ("SERVICE_PORT", .number),
    ("SERVICE_REDIRECT_URL", .nullableString),
    ("HTTPS_PFX_PASSPHRASE", .nullableString),
    ("HTTPS_PFX_FILE_PATH", .nullableString),
    ("HTTPS_SSL_CERT_PATH", .nullableString),
    ("HTTPS_SSL_KEY_PATH", .nullableString),
    ("CORS_ORIGIN", .nullableString),
    ("CORS_METHODS", .nullableString),
    ("CORS_ALLOWED_HEADERS", .nullableString),
    ("CORS_EXPOSED_HEADERS", .nullableString),
    ("LOG_LEVEL",
      .enumDefault ["fatal", "error", "warn", "info", "debug", "trace", "silent"] "info"),
    ("LOG_ROTATION_DATE_FORMAT", .stringDefault "YYYY-MM-DD"),
    ("LOG_ROTATION_FILENAME", .nullableString),
    ("LOG_ROTATION_FREQUENCY", .enumDefault ["custom", "daily", "test"] "daily"),
    ("LOG_ROTATION_MAX_LOGS", .nullableString),
    ("LOG_ROTATION_MAX_SIZE", .nullableString),
    ("AUTH_BEARER_TOKEN_ARRAY", .nullableString),
    ("JWKS_ENDPOINT", .nullableUri),
    ("JWT_ALLOWED_AUDIENCE", .nullableString),
    ("JWT_ALLOWED_ALGO_ARRAY", .nullableString),
    ("JWT_ALLOWED_ISSUERS", .nullableString),
    ("JWT_MAX_AGE", .nullableString) ]

/-- The argument of `.required([...])` in the source. -/
def required : List String := ["NODE_ENV", "SERVICE_HOST", "SERVICE_PORT"]

/-- The validated environment returned by `envSchema`: the declared properties
after coercion and defaults (undeclared properties are removed). -/
structure Env where
  NODE_ENV : String
  SERVICE_HOST : String
  SERVICE_PORT : JsNumber
  SERVICE_REDIRECT_URL : EnvStr
  HTTPS_PFX_PASSPHRASE : EnvStr
  HTTPS_PFX_FILE_PATH : EnvStr
  HTTPS_SSL_CERT_PATH : EnvStr
  HTTPS_SSL_KEY_PATH : EnvStr
  CORS_ORIGIN : EnvStr
  CORS_METHODS : EnvStr
  CORS_ALLOWED_HEADERS : EnvStr
  CORS_EXPOSED_HEADERS : EnvStr
  LOG_LEVEL : String
  LOG_ROTATION_DATE_FORMAT : String
  LOG_ROTATION_FILENAME : EnvStr
  LOG_ROTATION_FREQUENCY : String
  LOG_ROTATION_MAX_LOGS : EnvStr
  LOG_ROTATION_MAX_SIZE : EnvStr
  AUTH_BEARER_TOKEN_ARRAY : EnvStr
  JWKS_ENDPOINT : EnvStr
  JWT_ALLOWED_AUDIENCE : EnvStr
  JWT_ALLOWED_ALGO_ARRAY : EnvStr
  JWT_ALLOWED_ISSUERS : EnvStr
  JWT_MAX_AGE : EnvStr

/-- Ajv's coercion of a string to the type `number`: the string must be
non-empty and equal (`==`) to its own numeric value, that is, not `NaN`. -/
def coerceNumber (s : String) : Option JsNumber :=
  if s = "" then none
  else match toNumber s with
    | .nan => none
    | n => some n

/-- One error per required property that the data lacks (all of them, as
`allErrors` is set). -/
def requiredErrors (raw : String → Option String) : List AjvError :=
  (required.filter fun k => (raw k).isNone).map fun k =>
    ⟨"required", k, "should have required property \x27" ++ k ++ "\x27"⟩

/-- The errors of one declared property.  `isUri` is the validator's check of
the format `uri`. -/
def propErrors (isUri : String → Bool) (raw : String → Option String) :
    String × PropSchema → List AjvError
  | (k, .number) =>
    match raw k with
    | none => []
    | some s => if (coerceNumber s).isSome then [] else [⟨"type", k, "should be number"⟩]
  | (k, .enumDefault allowed _) =>
    match raw k with
    | none => []
    | some s =>
      if s ∈ allowed then []
      else [⟨"enum", k, "should be equal to one of the allowed values"⟩]
  | (k, .nullableUri) =>
    match raw k with
    | none => []
    | some s =>
      if isUri s ∨ s = "" then []
      else [⟨"format", k, "should match format \"uri\""⟩, ⟨"type", k, "should be null"⟩,
        ⟨"anyOf", k, "should match some schema in anyOf"⟩]
  | _ => []

/-- All validation errors: the `required` keyword first, then the properties in
schema order. -/
def validationErrors (isUri : String → Bool) (raw : String → Option String) : List AjvError :=
  requiredErrors raw ++ (schema.map (propErrors isUri raw)).flatten

/-- A property declared `anyOf [string, null]`: a string stays as it is. -/
def nullable (raw : String → Option String) (k : String) : EnvStr :=
  match raw k with
  | none => .undefined
  | some s => .str s

/-- The property `JWKS_ENDPOINT`: a string in the format `uri` stays as it is;
the empty string fails the first branch and is coerced to `null` by the second. -/
def nullableUri (isUri : String → Bool) (raw : String → Option String) (k : String) : EnvStr :=
  match raw k with
  | none => .undefined
  | some s => if isUri s then .str s else .null

/-- A property with a default: the default is assigned when the property is missing. -/
def withDefault (raw : String → Option String) (k dflt : String) : String :=
  (raw k).getD dflt

/-- The call `envSchema({ dotenv: true, schema })` of the source. -/
def envSchema (isUri : String → Bool) (raw : String → Option String) : Except Thrown Env :=
  match validationErrors isUri raw, raw "NODE_ENV", raw "SERVICE_HOST",
      (raw "SERVICE_PORT").bind coerceNumber with
  | [], some nodeEnv, some serviceHost, some servicePort =>
    .ok {
      NODE_ENV := nodeEnv
      SERVICE_HOST := serviceHost
      SERVICE_PORT := servicePort
      SERVICE_REDIRECT_URL := nullable raw "SERVICE_REDIRECT_URL"
      HTTPS_PFX_PASSPHRASE := nullable raw "HTTPS_PFX_PASSPHRASE"
      HTTPS_PFX_FILE_PATH := nullable raw "HTTPS_PFX_FILE_PATH"
      HTTPS_SSL_CERT_PATH := nullable raw "HTTPS_SSL_CERT_PATH"
      HTTPS_SSL_KEY_PATH := nullable raw "HTTPS_SSL_KEY_PATH"
      CORS_ORIGIN := nullable raw "CORS_ORIGIN"
      CORS_METHODS := nullable raw "CORS_METHODS"
      CORS_ALLOWED_HEADERS := nullable raw "CORS_ALLOWED_HEADERS"
      CORS_EXPOSED_HEADERS := nullable raw "CORS_EXPOSED_HEADERS"
      LOG_LEVEL := withDefault raw "LOG_LEVEL" "info"
      LOG_ROTATION_DATE_FORMAT := withDefault raw "LOG_ROTATION_DATE_FORMAT" "YYYY-MM-DD"
      LOG_ROTATION_FILENAME := nullable raw "LOG_ROTATION_FILENAME"
      LOG_ROTATION_FREQUENCY := withDefault raw "LOG_ROTATION_FREQUENCY" "daily"
      LOG_ROTATION_MAX_LOGS := nullable raw "LOG_ROTATION_MAX_LOGS"
      LOG_ROTATION_MAX_SIZE := nullable raw "LOG_ROTATION_MAX_SIZE"
      AUTH_BEARER_TOKEN_ARRAY := nullable raw "AUTH_BEARER_TOKEN_ARRAY"
      JWKS_ENDPOINT := nullableUri isUri raw "JWKS_ENDPOINT"
      JWT_ALLOWED_AUDIENCE := nullable raw "JWT_ALLOWED_AUDIENCE"
      JWT_ALLOWED_ALGO_ARRAY := nullable raw "JWT_ALLOWED_ALGO_ARRAY"
      JWT_ALLOWED_ISSUERS := nullable raw "JWT_ALLOWED_ISSUERS"
      JWT_MAX_AGE := nullable raw "JWT_MAX_AGE" }
  | errors, _, _, _ =>
    .error (.validation (String.intercalate "\n" (errors.map fun e => e.message)) errors)

/-! ## The host: `package.json`, the file system, the format checker -/

/-- Contents of a file (a Node `Buffer`). -/
abbrev Buffer := List Nat

/-- The fields read from `package.json`. -/
structure Package where
  name : String
  description : String
  license : String
  version : String

/-- The error of a rejected `fsp.readFile`.  Its `path` property is the path of
the file when the file could not be opened (it does not exist, or permission is
denied), and is missing (`none`) when the failure comes later, as when the path
is a directory and the read fails. -/
structure FsError where
  path : Option String

/-- The text of `err.path` inside a template literal: a missing property reads as
`undefined`. -/
def FsError.pathText (err : FsError) : String :=
  match err.path with
  | some p => p
  | none => "undefined"

/-- What `getConfig` reads from outside the source file: `package.json`, the
outcome of reading each path (the contents, or the error the read is rejected
with), and the validator's check of the format `uri`. -/
structure Host where
  pkg : Package
  files : String → Except FsError Buffer
  isUri : String → Bool

/-- The call `fsp.readFile(path)`, awaited. -/
def fsp.readFile (host : Host) (path : String) : Except FsError Buffer :=
  host.files path

/-! ## The resolved configuration -/

/-- The options object handed to `rotatingLogStream.getStream`.  The call is
taken to return, and the stream it returns is represented by these options. -/
structure RotationOptions where
  date_format : String
  filename : EnvStr
  frequency : String
  max_logs : EnvStr
  size : EnvStr
  verbose : Bool

/-- The object `config.fastifyInit.logger` (its function-valued members
`formatters`, `serializers` and `timestamp` are constants and are left out). -/
structure Logger where
  level : String
  stream : Option RotationOptions

/-- The object `config.fastifyInit.https`; a field that the object does not have
is `none`. -/
structure Https where
  cert : Option Buffer
  key : Option Buffer
  passphrase : Option EnvStr
  pfx : Option Buffer

/-- The object `config.fastifyInit`; `https` is `none` when the property is not
set. -/
structure FastifyInit where
  logger : Logger
  ignoreTrailingSlash : Bool
  https : Option Https

/-- The object `config.fastify`. -/
structure Fastify where
  host : String
  port : JsNumber

/-- The object `config.cors`; a property that is not set is `none`. -/
structure Cors where
  origin : JsValue
  methods : Option EnvStr
  allowedHeaders : Option EnvStr
  exposedHeaders : Option EnvStr

/-- The object `config.jwt`. -/
structure Jwt where
  jwksEndpoint : EnvStr
  allowedAudiences : EnvStr
  allowedAlgorithms : JsValue
  allowedIssuers : EnvStr
  maxAge : EnvStr

/-- The object `config.swagger`, flattened. -/
structure Swagger where
  routePrefix : String
  exposeRoute : Bool
  title : String
  description : String
  contactName : String
  contactEmail : String
  licenseName : String
  licenseUrl : String
  version : String
  tags : List (String × String)

/-- The object returned by `getConfig`.  `authKeys` is `none` when the object has
no such property; otherwise it holds the elements of the `Set` in insertion
order. -/
structure Config where
  isProduction : Bool
  fastify : Fastify
  fastifyInit : FastifyInit
  cors : Cors
  swagger : Swagger
  jwt : Jwt
  redirectUrl : EnvStr
  authKeys : Option (List JsValue)

/-! ## `src/config/index.js` -/

/-- Source lines 17-25: convert string boolean to boolean. -/
def parseCorsParameter (param : EnvStr) : JsValue :=
  if param = .str "true" then .bool true
  else if param = .str "false" then .bool false
  else param.toJs

/-- Equality of two numbers as values (`NaN` equals `NaN`, `+0` equals `-0`). -/
def numberEq : JsNumber → JsNumber → Bool
  | .nan, .nan => true
  | .inf a, .inf b => a == b
  | .fin na ma ka, .fin nb mb kb =>
    (ma == 0 && mb == 0) || (na == nb && ma * 2 ^ kb == mb * 2 ^ ka)
  | _, _ => false

/-- The comparison `SameValueZero` used by `Set`.  Arrays and objects are
compared by identity, and every array or object produced by `JSON.parse` is a
fresh one, so two of them are never the same. -/
def sameValueZero : JsValue → JsValue → Bool
  | .undefined, .undefined => true
  | .null, .null => true
  | .bool a, .bool b => a == b
  | .number a, .number b => numberEq a b
  | .string a, .string b => a == b
  | _, _ => false

/-- The call `keys.add(v)` on a `Set`. -/
def setAdd (keys : List JsValue) (v : JsValue) : List JsValue :=
  if keys.any (sameValueZero v) then keys else keys ++ [v]

/-- The expression `element.value`: a `TypeError` on `null` and `undefined`, the
own property `value` of an object, and `undefined` in every other case. -/
def elementValue : JsValue → Except Thrown JsValue
  | .undefined => .error .typeError
  | .null => .error .typeError
  | .object props =>
    match props.lookup "value" with
    | some v => .ok v
    | none => .ok .undefined
  | _ => .ok .undefined

/-- Source lines 85-157: the object literal `config`.  The only expression in it
that can throw is `JSON.parse(env.JWT_ALLOWED_ALGO_ARRAY)`. -/
def configLiteral (pkg : Package) (env : Env) : Except Thrown Config := do
  let isProduction := env.NODE_ENV == "production"
  let allowedAlgorithms ← JSON.parse env.JWT_ALLOWED_ALGO_ARRAY
  pure {
    isProduction := isProduction
    fastify := { host := env.SERVICE_HOST, port := env.SERVICE_PORT }
    fastifyInit := {
      logger := { level := strOr env.LOG_LEVEL "info", stream := none }
      ignoreTrailingSlash := true
      https := none }
    cors := {
      origin := jsOr (parseCorsParameter env.CORS_ORIGIN) (.bool false)
      methods := none
      allowedHeaders := none
      exposedHeaders := none }
    swagger := {
      routePrefix := "/docs"
      exposeRoute := true
      title := pkg.name
      description := pkg.description
      contactName := "Solutions Development Team"
      contactEmail := "servicedesk@ydh.nhs.uk"
      licenseName := pkg.license
      licenseUrl :=
        "https://raw.githubusercontent.com/Fdawgs/ydh-fhir-authentication-service/master/LICENSE"
      version := pkg.version
      tags := [("Redirects", "Endpoints relating to redirection to FHIR listener"),
        ("System Administration", "")] }
    jwt := {
      jwksEndpoint := env.JWKS_ENDPOINT
      allowedAudiences := env.JWT_ALLOWED_AUDIENCE
      allowedAlgorithms := allowedAlgorithms
      allowedIssuers := env.JWT_ALLOWED_ISSUERS
      maxAge := env.JWT_MAX_AGE }
    redirectUrl := env.SERVICE_REDIRECT_URL
    authKeys := none }

/-- Source lines 159-169: the log rotation stream.  `env.LOG_ROTATION_MAX_LOG` is
not a property of the schema, so it is `undefined`. -/
def logRotation (env : Env) (config : Config) : Config :=
  if env.LOG_ROTATION_FILENAME.truthy then
    { config with
      fastifyInit := { config.fastifyInit with
        logger := { config.fastifyInit.logger with
          stream := some {
            date_format := strOr env.LOG_ROTATION_DATE_FORMAT "YYYY-MM-DD"
            filename := env.LOG_ROTATION_FILENAME
            frequency := strOr env.LOG_ROTATION_FREQUENCY "daily"
            max_logs := .undefined
            size := env.LOG_ROTATION_MAX_SIZE
            verbose := false } } } }
  else config

/-- Source lines 173-175: `JSON.parse(...).forEach((element) => keys.add(element.value))`
applied to the parsed value; `forEach` exists on arrays only. -/
def forEachAdd : JsValue → Except Thrown (List JsValue)
  | .array items =>
    items.foldlM (fun keys element => do
      let v ← elementValue element
      pure (setAdd keys v)) []
  | _ => .error .typeError

/-- Source lines 171-177: the bearer token keys. -/
def authKeys (env : Env) (config : Config) : Except Thrown Config :=
  if env.AUTH_BEARER_TOKEN_ARRAY.truthy then do
    let parsed ← JSON.parse env.AUTH_BEARER_TOKEN_ARRAY
    let keys ← forEachAdd parsed
    pure { config with authKeys := some keys }
  else pure config

/-- Source lines 179-187: the optional CORS properties. -/
def corsOptions (env : Env) (config : Config) : Config :=
  let c1 := if env.CORS_METHODS.truthy then
    { config with cors := { config.cors with methods := some env.CORS_METHODS } } else config
  let c2 := if env.CORS_ALLOWED_HEADERS.truthy then
    { c1 with cors := { c1.cors with allowedHeaders := some env.CORS_ALLOWED_HEADERS } } else c1
  if env.CORS_EXPOSED_HEADERS.truthy then
    { c2 with cors := { c2.cors with exposedHeaders := some env.CORS_EXPOSED_HEADERS } } else c2

/-- The statement `config.fastifyInit.https = value`. -/
def setHttps (config : Config) (value : Https) : Config :=
  { config with fastifyInit := { config.fastifyInit with https := some value } }

/-- Source lines 190-201: HTTPS from a certificate and key. -/
def httpsCertKey (host : Host) (env : Env) (config : Config) : Except Thrown Config :=
  if env.HTTPS_SSL_CERT_PATH.truthy && env.HTTPS_SSL_KEY_PATH.truthy then
    let attempt : Except FsError Config := do
      let cert ← fsp.readFile host env.HTTPS_SSL_CERT_PATH.toText
      let key ← fsp.readFile host env.HTTPS_SSL_KEY_PATH.toText
      pure (setHttps config { cert := some cert, key := some key, passphrase := none, pfx := none })
    match attempt with
    | .ok config1 => .ok config1
    | .error err =>
      .error (.error ("No such file or directory " ++ err.pathText ++
        " for SSL cert/key, falling back to HTTP"))
  else .ok config

/-- Source lines 203-214: HTTPS from a PFX file and passphrase. -/
def httpsPfx (host : Host) (env : Env) (config : Config) : Except Thrown Config :=
  if env.HTTPS_PFX_PASSPHRASE.truthy && env.HTTPS_PFX_FILE_PATH.truthy then
    let attempt : Except FsError Config := do
      let pfx ← fsp.readFile host env.HTTPS_PFX_FILE_PATH.toText
      pure (setHttps config
        { cert := none, key := none, passphrase := some env.HTTPS_PFX_PASSPHRASE, pfx := some pfx })
    match attempt with
    | .ok config1 => .ok config1
    | .error err =>
      .error (.error ("No such file or directory " ++ err.pathText ++
        " for PFX file, falling back to HTTP"))
  else .ok config

/-- Source lines 83-187: what `getConfig` does after validation and before the
HTTPS branches. -/
def beforeHttps (pkg : Package) (env : Env) : Except Thrown Config := do
  let config ← configLiteral pkg env
  let config := logRotation env config
  let config ← authKeys env config
  pure (corsOptions env config)

/-- Source lines 83-216: everything `getConfig` does after validation. -/
def resolve (host : Host) (env : Env) : Except Thrown Config := do
  let config ← beforeHttps host.pkg env
  let config ← httpsCertKey host env config
  httpsPfx host env config

/-- Source lines 32-217: validate environment variables and build server config.
`raw` is the environment after the `.env` file has been merged into it. -/
def getConfig (host : Host) (raw : String → Option String) : Except Thrown Config := do
  let env ← envSchema host.isUri raw
  resolve host env

/-! ## Concrete hosts and environments used as examples -/

/-- An environment given by its list of variables. -/
def envOf (vars : List (String × String)) : String → Option String :=
  fun k => vars.lookup k

/-- Ajv 6 check of the format `uri` in its default mode, the regular expression
`/^(?:[a-z][a-z0-9+\-.]*:)(?:\/?\/)?[^\s]*$/i`: a scheme, a colon, and no white
space after it. -/
def uriFast (s : String) : Bool :=
  let isAlpha (c : Char) : Bool := c.isLower || c.isUpper
  match s.toList.span fun c => isAlpha c || c.isDigit || c == '+' || c == '-' || c == '.' with
  | (c :: _, ':' :: rest) => isAlpha c && rest.all fun x => !isStrWhiteSpace x
  | _ => false

/-- A host with three readable files in the directory `/tls`.  Reading the
directory itself is rejected with an error that has no `path`; every other path
does not exist, and reading it is rejected with an error that carries the path. -/
def exampleHost : Host where
  pkg := ⟨"ydh-fhir-authentication-service", "", "MIT", "1.0.0"⟩
  files := fun path =>
    if path = "/tls/cert.pem" then .ok [1, 2]
    else if path = "/tls/key.pem" then .ok [3, 4]
    else if path = "/tls/bundle.pfx" then .ok [5, 6, 7]
    else if path = "/tls" then .error ⟨none⟩
    else .error ⟨some path⟩
  isUri := uriFast

/-- The three required variables and nothing else. -/
def minimalEnv : String → Option String :=
  envOf [("NODE_ENV", "development"), ("SERVICE_HOST", "localhost"), ("SERVICE_PORT", "8204")]

/-- The required variables without `SERVICE_PORT`. -/
def noPortEnv : String → Option String :=
  envOf [("NODE_ENV", "development"), ("SERVICE_HOST", "localhost")]

/-- The required variables, an algorithm list, and the given further variables. -/
def envWith (vars : List (String × String)) : String → Option String :=
  envOf ([("NODE_ENV", "development"), ("SERVICE_HOST", "localhost"), ("SERVICE_PORT", "8204"),
    ("JWT_ALLOWED_ALGO_ARRAY", "[\"RS256\"]")] ++ vars)

/-- The required variables with the given port, and an algorithm list. -/
def envWithPort (port : String) : String → Option String :=
  envOf [("NODE_ENV", "development"), ("SERVICE_HOST", "localhost"), ("SERVICE_PORT", port),
    ("JWT_ALLOWED_ALGO_ARRAY", "[\"RS256\"]")]

/-- The required variables and the given algorithm list. -/
def envWithAlgorithms (text : String) : String → Option String :=
  envOf [("NODE_ENV", "development"), ("SERVICE_HOST", "localhost"), ("SERVICE_PORT", "8204"),
    ("JWT_ALLOWED_ALGO_ARRAY", text)]

/-- A validated environment with the given `CORS_ORIGIN` and
`AUTH_BEARER_TOKEN_ARRAY`, an algorithm list, and no other optional variable. -/
def validatedWith (corsOrigin authBearerTokenArray : EnvStr) : Env where
  NODE_ENV := "development"
  SERVICE_HOST := "localhost"
  SERVICE_PORT := .fin false 8204 0
  SERVICE_REDIRECT_URL := .undefined
  HTTPS_PFX_PASSPHRASE := .undefined
  HTTPS_PFX_FILE_PATH := .undefined
  HTTPS_SSL_CERT_PATH := .undefined
  HTTPS_SSL_KEY_PATH := .undefined
  CORS_ORIGIN := corsOrigin
  CORS_METHODS := .undefined
  CORS_ALLOWED_HEADERS := .undefined
  CORS_EXPOSED_HEADERS := .undefined
  LOG_LEVEL := "info"
  LOG_ROTATION_DATE_FORMAT := "YYYY-MM-DD"
  LOG_ROTATION_FILENAME := .undefined
  LOG_ROTATION_FREQUENCY := "daily"
  LOG_ROTATION_MAX_LOGS := .undefined
  LOG_ROTATION_MAX_SIZE := .undefined
  AUTH_BEARER_TOKEN_ARRAY := authBearerTokenArray
  JWKS_ENDPOINT := .undefined
  JWT_ALLOWED_AUDIENCE := .undefined
  JWT_ALLOWED_ALGO_ARRAY := .str "[\"RS256\"]"
  JWT_ALLOWED_ISSUERS := .undefined
  JWT_MAX_AGE := .undefined

/-- The bearer token list of the specification's example. -/
def tokensText : String :=
  "[\x7b\"value\":\"a\"\x7d,\x7b\"value\":\"a\"\x7d,\x7b\"value\":\"b\"\x7d]"

/-- A bearer token list whose second element has no `value`. -/
def tokensNoValueText : String :=
  "[\x7b\"value\":\"a\"\x7d,\x7b\"name\":\"b\"\x7d]"

/-- Certificate and key paths, the certificate missing. -/
def certMissingEnv : String → Option String :=
  envWith [("HTTPS_SSL_CERT_PATH", "/tls/missing.pem"), ("HTTPS_SSL_KEY_PATH", "/tls/key.pem")]

/-- Certificate and key paths, the certificate path being a directory. -/
def certDirectoryEnv : String → Option String :=
  envWith [("HTTPS_SSL_CERT_PATH", "/tls"), ("HTTPS_SSL_KEY_PATH", "/tls/key.pem")]

/-- Certificate and key paths, the certificate missing, and no `SERVICE_PORT`. -/
def certMissingNoPortEnv : String → Option String :=
  envOf [("NODE_ENV", "development"), ("SERVICE_HOST", "localhost"),
    ("JWT_ALLOWED_ALGO_ARRAY", "[\"RS256\"]"),
    ("HTTPS_SSL_CERT_PATH", "/tls/missing.pem"), ("HTTPS_SSL_KEY_PATH", "/tls/key.pem")]

/-- Certificate and key paths, the key missing. -/
def keyMissingEnv : String → Option String :=
  envWith [("HTTPS_SSL_CERT_PATH", "/tls/cert.pem"), ("HTTPS_SSL_KEY_PATH", "/tls/missing.key")]

/-- Readable certificate and key, and a PFX path that is missing. -/
def pfxMissingEnv : String → Option String :=
  envWith [("HTTPS_SSL_CERT_PATH", "/tls/cert.pem"), ("HTTPS_SSL_KEY_PATH", "/tls/key.pem"),
    ("HTTPS_PFX_PASSPHRASE", "secret"), ("HTTPS_PFX_FILE_PATH", "/tls/missing.pfx")]

/-- Readable certificate, key and PFX file, and a passphrase. -/
def bothTlsEnv : String → Option String :=
  envWith [("HTTPS_SSL_CERT_PATH", "/tls/cert.pem"), ("HTTPS_SSL_KEY_PATH", "/tls/key.pem"),
    ("HTTPS_PFX_PASSPHRASE", "secret"), ("HTTPS_PFX_FILE_PATH", "/tls/bundle.pfx")]

/-! ## Predicates used in the statements -/

/-- The message mentions the given text: the text occurs in it as a contiguous
substring. -/
def mentions (message part : String) : Prop := part.toList <:+: message.toList

/-! ## Lemmas

### Rounding to binary64 -/

/-- The halving loop stops at once on `0`. -/
theorem bitLengthAux_zero (fuel acc : Nat) : bitLengthAux fuel 0 acc = acc := by
  cases fuel <;> simp [bitLengthAux]

/-- With enough fuel the halving loop counts the binary digits. -/
theorem bitLengthAux_eq (fuel : Nat) :
    ∀ n acc, n ≤ fuel → n ≠ 0 → bitLengthAux fuel n acc = acc + Nat.log2 n + 1 := by
  induction fuel with
  | zero => intro n acc h hn; exact absurd (Nat.le_zero.1 h) hn
  | succ fuel ih =>
    intro n acc h hn
    simp only [bitLengthAux, hn, if_false]
    by_cases h2 : n / 2 = 0
    · have hlt : n < 2 := by omega
      have h1 : n = 1 := by omega
      subst h1
      rw [h2, bitLengthAux_zero]
      simp [Nat.log2]
    · have hge : n ≥ 2 := by omega
      rw [ih (n / 2) (acc + 1) (by omega) h2]
      conv_rhs => rw [Nat.log2]
      simp only [hge, if_true]
      omega

/-- The fuel of `bitLength` suffices: a positive `n` has `log2 n + 1` binary
digits. -/
theorem bitLength_eq (n : Nat) (hn : n ≠ 0) : bitLength n = Nat.log2 n + 1 := by
  unfold bitLength
  rw [bitLengthAux_eq n n 0 (Nat.le_refl n) hn]
  omega

/-- Stripping the factor `2^j` of `m * 2^j`. -/
theorem dyadic_mul_pow (m : Nat) : ∀ j, dyadic (m * 2 ^ j) j = (m, 0) := by
  intro j
  induction j with
  | zero => simp [dyadic]
  | succ j ih =>
    have h1 : m * 2 ^ (j + 1) % 2 = 0 := by
      rw [pow_succ, ← mul_assoc]; exact Nat.mul_mod_left _ _
    have h2 : m * 2 ^ (j + 1) / 2 = m * 2 ^ j := by
      rw [pow_succ, ← mul_assoc]; exact Nat.mul_div_cancel _ (by decide)
    simp only [dyadic, h1, if_true, h2]
    exact ih

/-- An integer below `2^53` is a binary64 value: rounding keeps it. -/
theorem roundBinary64_exact (neg : Bool) (n : Nat) (h : n < 2 ^ 53) :
    roundBinary64 neg n 1 = .fin neg n 0 := by
  by_cases hn : n = 0
  · subst hn; simp [roundBinary64]
  have hb1 : bitLength 1 = 1 := rfl
  have hbn := bitLength_eq n hn
  have hlo : 2 ^ Nat.log2 n ≤ n := Nat.log2_self_le hn
  have hlog : Nat.log2 n < 53 := (Nat.log2_lt hn).2 h
  obtain ⟨j, hj⟩ : ∃ j, Nat.log2 n + j = 52 := ⟨52 - Nat.log2 n, by omega⟩
  have hq : 2 ^ 53 ≤ n * 2 ^ (j + 1) := by
    calc 2 ^ 53 = 2 ^ Nat.log2 n * 2 ^ (j + 1) := by rw [← pow_add]; congr 1; omega
      _ ≤ n * 2 ^ (j + 1) := Nat.mul_le_mul_right _ hlo
  have he0 : ((bitLength n : Int) - (bitLength 1 : Int) - 53) = -((j : Int) + 1) := by
    rw [hbn, hb1]; push_cast; omega
  unfold roundBinary64
  simp only [hn, if_false, he0]
  have hneg : ¬ (0 : Int) ≤ -((j : Int) + 1) := by omega
  have htn : (-(-((j : Int) + 1))).toNat = j + 1 := by
    rw [neg_neg]; exact Int.toNat_ofNat (j + 1) ▸ by norm_cast
  simp only [hneg, if_false, htn, Nat.div_one, Nat.not_lt.2 hq]
  have he1 : (-((j : Int) + 1) + 1) = -(j : Int) := by ring
  have hmax : max (-(j : Int)) (-1074) = -(j : Int) := by
    apply max_eq_left; omega
  simp only [he1, hmax]
  cases j with
  | zero =>
    have hbl : ¬ 1024 < bitLength n := by rw [hbn]; omega
    simp [Nat.mod_one, hbl]
  | succ j =>
    have hneg2 : ¬ (0 : Int) ≤ -((j + 1 : Nat) : Int) := by push_cast; omega
    have htn2 : (-(-((j + 1 : Nat) : Int))).toNat = j + 1 := by
      rw [neg_neg]; exact Int.toNat_ofNat (j + 1)
    simp only [hneg2, if_false, htn2, Nat.div_one, Nat.mod_one, Nat.mul_zero]
    have hc : ¬ (1 < 0 ∨ (0 = 1 ∧ n * 2 ^ (j + 1) % 2 = 1)) := by omega
    simp only [hc, if_false, dyadic_mul_pow]

set_option exponentiation.threshold 3000 in
set_option maxRecDepth 100000 in
/-- The numeric coercion rounds to binary64: `9007199254740993` becomes
`9007199254740992`, `0.1` becomes `3602879701896397 / 2^55`, `1e400` becomes
`Infinity` and `5e-324` the least positive value `1 / 2^1074`. -/
theorem toNumber_rounds :
    toNumber "9007199254740993" = .fin false 9007199254740992 0 ∧
    toNumber "0.1" = .fin false 3602879701896397 55 ∧
    toNumber "1e400" = .inf false ∧
    toNumber "5e-324" = .fin false 1 1074 :=
  ⟨rfl, rfl, by decide, by decide⟩

/-! ### Messages -/

theorem mentions_append_mid (a p b : String) : mentions (a ++ p ++ b) p :=
  ⟨a.toList, b.toList, by simp [String.toList]⟩

theorem intercalate_go_mentions (sep : String) :
    ∀ (l : List String) (acc : String),
      (∀ p, mentions acc p → mentions (String.intercalate.go acc sep l) p) ∧
      (∀ m ∈ l, ∀ p, mentions m p → mentions (String.intercalate.go acc sep l) p) := by
  intro l
  induction l with
  | nil =>
    intro acc
    exact ⟨fun p hp => by simpa [String.intercalate.go] using hp, fun m hm => by simp at hm⟩
  | cons a rest ih =>
    intro acc
    have h := ih (acc ++ sep ++ a)
    refine ⟨fun p hp => ?_, fun m hm p hp => ?_⟩
    · simp only [String.intercalate.go]
      apply h.1
      obtain ⟨x, y, hxy⟩ := hp
      exact ⟨x, y ++ (sep ++ a).toList, by simp [String.toList] at hxy ⊢; simp [← hxy]⟩
    · simp only [String.intercalate.go]
      rcases List.mem_cons.1 hm with rfl | hm
      · apply h.1
        obtain ⟨x, y, hxy⟩ := hp
        exact ⟨(acc ++ sep).toList ++ x, y, by simp [String.toList] at hxy ⊢; simp [← hxy]⟩
      · exact h.2 m hm p hp

/-- A text mentioned by one of the joined messages is mentioned by the joined
message. -/
theorem intercalate_mentions (sep : String) (l : List String) (m p : String)
    (hm : m ∈ l) (hp : mentions m p) : mentions (String.intercalate sep l) p := by
  cases l with
  | nil => simp at hm
  | cons a rest =>
    simp only [String.intercalate]
    rcases List.mem_cons.1 hm with rfl | hm
    · exact (intercalate_go_mentions sep rest m).1 p hp
    · exact (intercalate_go_mentions sep rest a).2 m hm p hp


/-! ### The stages of `getConfig` -/

theorem getConfig_ok {host : Host} {raw : String → Option String} {cfg : Config}
    (h : getConfig host raw = .ok cfg) :
    ∃ env, envSchema host.isUri raw = .ok env ∧ resolve host env = .ok cfg := by
  unfold getConfig at h
  cases hv : envSchema host.isUri raw with
  | error e => simp [hv, bind, Except.bind] at h
  | ok env => exact ⟨env, rfl, by simpa [hv, bind, Except.bind] using h⟩

theorem getConfig_of_env {host : Host} {raw : String → Option String} {env : Env}
    (hv : envSchema host.isUri raw = .ok env) : getConfig host raw = resolve host env := by
  simp [getConfig, hv, bind, Except.bind]

theorem getConfig_of_invalid {host : Host} {raw : String → Option String} {e : Thrown}
    (hv : envSchema host.isUri raw = .error e) : getConfig host raw = .error e := by
  simp [getConfig, hv, bind, Except.bind]

/-- The validator fails as soon as there is one validation error. -/
theorem envSchema_of_errors (isUri : String → Bool) (raw : String → Option String)
    (h : validationErrors isUri raw ≠ []) :
    envSchema isUri raw = .error (.validation
      (String.intercalate "\n" ((validationErrors isUri raw).map fun e => e.message))
      (validationErrors isUri raw)) := by
  unfold envSchema
  split
  · rename_i heq _ _ _
    exact absurd heq h
  · rfl

/-- What a validated environment holds. -/
theorem envSchema_ok {isUri : String → Bool} {raw : String → Option String} {env : Env}
    (h : envSchema isUri raw = .ok env) :
    (∃ s, raw "SERVICE_PORT" = some s ∧ coerceNumber s = some env.SERVICE_PORT) ∧
    env.CORS_ORIGIN = nullable raw "CORS_ORIGIN" ∧
    env.AUTH_BEARER_TOKEN_ARRAY = nullable raw "AUTH_BEARER_TOKEN_ARRAY" ∧
    env.JWT_ALLOWED_ALGO_ARRAY = nullable raw "JWT_ALLOWED_ALGO_ARRAY" ∧
    env.HTTPS_SSL_CERT_PATH = nullable raw "HTTPS_SSL_CERT_PATH" ∧
    env.HTTPS_SSL_KEY_PATH = nullable raw "HTTPS_SSL_KEY_PATH" ∧
    env.HTTPS_PFX_PASSPHRASE = nullable raw "HTTPS_PFX_PASSPHRASE" ∧
    env.HTTPS_PFX_FILE_PATH = nullable raw "HTTPS_PFX_FILE_PATH" := by
  unfold envSchema at h
  split at h
  · rename_i nodeEnv serviceHost servicePort _ _ _ hp
    cases h
    refine ⟨?_, rfl, rfl, rfl, rfl, rfl, rfl, rfl⟩
    cases hs : raw "SERVICE_PORT" with
    | none => simp [hs] at hp
    | some s => exact ⟨s, rfl, by simpa [hs] using hp⟩
  · cases h


/-- The validator returns an environment when there is no validation error. -/
theorem envSchema_of_no_errors (isUri : String → Bool) (raw : String → Option String)
    (h : validationErrors isUri raw = []) : ∃ env, envSchema isUri raw = .ok env := by
  have h0 := h
  simp only [validationErrors, List.append_eq_nil] at h0
  obtain ⟨hr, hp⟩ := h0
  simp only [requiredErrors, required, List.map_eq_nil_iff, List.filter_eq_nil_iff] at hr
  have r1 := hr "NODE_ENV" (by simp)
  have r2 := hr "SERVICE_HOST" (by simp)
  have r3 := hr "SERVICE_PORT" (by simp)
  have hport : propErrors isUri raw ("SERVICE_PORT", .number) = [] := by
    have := List.flatten_eq_nil_iff.1 hp (propErrors isUri raw ("SERVICE_PORT", .number))
      (List.mem_map.2 ⟨_, by simp [schema], rfl⟩)
    exact this
  cases h1 : raw "NODE_ENV" with
  | none => simp [h1] at r1
  | some a =>
    cases h2 : raw "SERVICE_HOST" with
    | none => simp [h2] at r2
    | some b =>
      cases h3 : raw "SERVICE_PORT" with
      | none => simp [h3] at r3
      | some p =>
        cases h4 : coerceNumber p with
        | none => simp [propErrors, h3, h4] at hport
        | some n =>
          unfold envSchema
          simp [h, h1, h2, h3, h4]

/-- The object literal throws exactly when `JSON.parse` does. -/
theorem configLiteral_of_error {pkg : Package} {env : Env} {e : Thrown}
    (h : JSON.parse env.JWT_ALLOWED_ALGO_ARRAY = .error e) :
    configLiteral pkg env = .error e := by
  simp [configLiteral, h, bind, Except.bind]

/-- What the object literal holds when it is built. -/
theorem configLiteral_ok {pkg : Package} {env : Env} {c : Config}
    (h : configLiteral pkg env = .ok c) :
    JSON.parse env.JWT_ALLOWED_ALGO_ARRAY = .ok c.jwt.allowedAlgorithms ∧
    c.cors.origin = jsOr (parseCorsParameter env.CORS_ORIGIN) (.bool false) ∧
    c.fastify.port = env.SERVICE_PORT ∧
    c.fastifyInit.logger.level = strOr env.LOG_LEVEL "info" ∧
    c.fastifyInit.https = none ∧
    c.authKeys = none := by
  unfold configLiteral at h
  cases hp : JSON.parse env.JWT_ALLOWED_ALGO_ARRAY with
  | error e => simp [hp, bind, Except.bind] at h
  | ok v =>
    simp only [hp, bind, Except.bind, pure, Except.pure, Except.ok.injEq] at h
    subst h
    exact ⟨rfl, rfl, rfl, rfl, rfl, rfl⟩

/-- The object literal is built whenever `JSON.parse` returns. -/
theorem configLiteral_of_parse {pkg : Package} {env : Env} {v : JsValue}
    (h : JSON.parse env.JWT_ALLOWED_ALGO_ARRAY = .ok v) :
    ∃ c, configLiteral pkg env = .ok c ∧ c.jwt.allowedAlgorithms = v := by
  simp [configLiteral, h, bind, Except.bind, pure, Except.pure]

/-- The log rotation block changes `fastifyInit.logger.stream` only. -/
theorem logRotation_keeps (env : Env) (c : Config) :
    (logRotation env c).jwt = c.jwt ∧ (logRotation env c).cors = c.cors ∧
    (logRotation env c).fastify = c.fastify ∧
    (logRotation env c).fastifyInit.logger.level = c.fastifyInit.logger.level ∧
    (logRotation env c).fastifyInit.https = c.fastifyInit.https ∧
    (logRotation env c).authKeys = c.authKeys := by
  unfold logRotation
  split <;> exact ⟨rfl, rfl, rfl, rfl, rfl, rfl⟩

/-- The CORS block leaves `cors.origin` and everything outside `cors` as it is. -/
theorem corsOptions_keeps (env : Env) (c : Config) :
    (corsOptions env c).jwt = c.jwt ∧ (corsOptions env c).cors.origin = c.cors.origin ∧
    (corsOptions env c).fastify = c.fastify ∧
    (corsOptions env c).fastifyInit = c.fastifyInit ∧
    (corsOptions env c).authKeys = c.authKeys := by
  unfold corsOptions
  cases env.CORS_METHODS.truthy <;> cases env.CORS_ALLOWED_HEADERS.truthy <;>
    cases env.CORS_EXPOSED_HEADERS.truthy <;> exact ⟨rfl, rfl, rfl, rfl, rfl⟩

/-- The bearer token block, when it returns, changes `authKeys` only, and sets it
only when the variable is truthy. -/
theorem authKeys_ok {env : Env} {c c1 : Config} (h : authKeys env c = .ok c1) :
    c1.jwt = c.jwt ∧ c1.cors = c.cors ∧ c1.fastify = c.fastify ∧
    c1.fastifyInit = c.fastifyInit ∧
    (env.AUTH_BEARER_TOKEN_ARRAY.truthy = false → c1.authKeys = c.authKeys) ∧
    (env.AUTH_BEARER_TOKEN_ARRAY.truthy = true →
      ∃ parsed keys, JSON.parse env.AUTH_BEARER_TOKEN_ARRAY = .ok parsed ∧
        forEachAdd parsed = .ok keys ∧ c1.authKeys = some keys) := by
  unfold authKeys at h
  cases ht : env.AUTH_BEARER_TOKEN_ARRAY.truthy with
  | false =>
    simp only [ht, pure, Except.pure, Except.ok.injEq] at h
    simp at h
    subst h
    simp
  | true =>
    simp only [ht, if_true] at h
    cases hp : JSON.parse env.AUTH_BEARER_TOKEN_ARRAY with
    | error e => simp [hp, bind, Except.bind] at h
    | ok parsed =>
      cases hk : forEachAdd parsed with
      | error e => simp [hp, hk, bind, Except.bind] at h
      | ok keys =>
        simp only [hp, hk, bind, Except.bind, pure, Except.pure, Except.ok.injEq] at h
        subst h
        exact ⟨rfl, rfl, rfl, rfl, by simp, fun _ => ⟨parsed, keys, rfl, hk, rfl⟩⟩


/-- The bearer token block returns the given configuration when the variable is
not truthy. -/
theorem authKeys_of_unset {env : Env} (c : Config)
    (h : env.AUTH_BEARER_TOKEN_ARRAY.truthy = false) : authKeys env c = .ok c := by
  simp [authKeys, h, pure, Except.pure]

/-- The bearer token block when the variable is truthy. -/
theorem authKeys_of_set {env : Env} (c : Config)
    (h : env.AUTH_BEARER_TOKEN_ARRAY.truthy = true) :
    authKeys env c =
      match JSON.parse env.AUTH_BEARER_TOKEN_ARRAY with
      | .error e => .error e
      | .ok parsed =>
        match forEachAdd parsed with
        | .error e => .error e
        | .ok keys => .ok { c with authKeys := some keys } := by
  unfold authKeys
  simp only [h, if_true]
  cases JSON.parse env.AUTH_BEARER_TOKEN_ARRAY with
  | error e => rfl
  | ok parsed =>
    cases hk : forEachAdd parsed with
    | error e => simp [hk, bind, Except.bind]
    | ok keys => simp [hk, bind, Except.bind, pure, Except.pure]

/-- What the steps before the HTTPS branches leave in the configuration. -/
theorem beforeHttps_ok {pkg : Package} {env : Env} {c : Config}
    (h : beforeHttps pkg env = .ok c) :
    JSON.parse env.JWT_ALLOWED_ALGO_ARRAY = .ok c.jwt.allowedAlgorithms ∧
    c.cors.origin = jsOr (parseCorsParameter env.CORS_ORIGIN) (.bool false) ∧
    c.fastify.port = env.SERVICE_PORT ∧
    c.fastifyInit.logger.level = strOr env.LOG_LEVEL "info" ∧
    c.fastifyInit.https = none ∧
    (env.AUTH_BEARER_TOKEN_ARRAY.truthy = false → c.authKeys = none) ∧
    (env.AUTH_BEARER_TOKEN_ARRAY.truthy = true →
      ∃ parsed keys, JSON.parse env.AUTH_BEARER_TOKEN_ARRAY = .ok parsed ∧
        forEachAdd parsed = .ok keys ∧ c.authKeys = some keys) := by
  unfold beforeHttps at h
  cases h0 : configLiteral pkg env with
  | error e => simp [h0, bind, Except.bind] at h
  | ok c0 =>
    cases h1 : authKeys env (logRotation env c0) with
    | error e => simp [h0, h1, bind, Except.bind] at h
    | ok c1 =>
      simp only [h0, h1, bind, Except.bind, pure, Except.pure, Except.ok.injEq] at h
      subst h
      obtain ⟨a1, a2, a3, a4, a5, a6⟩ := configLiteral_ok h0
      obtain ⟨b1, b2, b3, b4, b5, b6⟩ := logRotation_keeps env c0
      obtain ⟨d1, d2, d3, d4, d5, d6⟩ := authKeys_ok h1
      obtain ⟨e1, e2, e3, e4, e5⟩ := corsOptions_keeps env c1
      refine ⟨?_, ?_, ?_, ?_, ?_, ?_, ?_⟩
      · rw [e1, d1, b1]; exact a1
      · rw [e2, d2, b2]; exact a2
      · rw [e3, d3, b3]; exact a3
      · rw [e4, d4, b4]; exact a4
      · rw [e4, d4, b5]; exact a5
      · intro ht; rw [e5, d5 ht, b6]; exact a6
      · intro ht
        obtain ⟨parsed, keys, p1, p2, p3⟩ := d6 ht
        exact ⟨parsed, keys, p1, p2, by rw [e5]; exact p3⟩

/-- The steps before the HTTPS branches throw when `JSON.parse` of the algorithm
list throws. -/
theorem beforeHttps_of_error {pkg : Package} {env : Env} {e : Thrown}
    (h : JSON.parse env.JWT_ALLOWED_ALGO_ARRAY = .error e) :
    beforeHttps pkg env = .error e := by
  simp [beforeHttps, configLiteral_of_error h, bind, Except.bind]


/-- The certificate and key branch, by cases on the two reads. -/
theorem httpsCertKey_eq (host : Host) (env : Env) (c : Config) :
    httpsCertKey host env c =
      if env.HTTPS_SSL_CERT_PATH.truthy && env.HTTPS_SSL_KEY_PATH.truthy then
        match host.files env.HTTPS_SSL_CERT_PATH.toText with
        | .error err =>
          .error (.error ("No such file or directory " ++ err.pathText ++
            " for SSL cert/key, falling back to HTTP"))
        | .ok cert =>
          match host.files env.HTTPS_SSL_KEY_PATH.toText with
          | .error err =>
            .error (.error ("No such file or directory " ++ err.pathText ++
              " for SSL cert/key, falling back to HTTP"))
          | .ok key => .ok (setHttps c ⟨some cert, some key, none, none⟩)
      else .ok c := by
  unfold httpsCertKey
  split
  · cases h1 : host.files env.HTTPS_SSL_CERT_PATH.toText with
    | error err => simp [fsp.readFile, h1, bind, Except.bind]
    | ok cert =>
      cases h2 : host.files env.HTTPS_SSL_KEY_PATH.toText with
      | error err => simp [fsp.readFile, h1, h2, bind, Except.bind]
      | ok key => simp [fsp.readFile, h1, h2, bind, Except.bind, pure, Except.pure]
  · rfl

/-- The PFX branch, by cases on the read. -/
theorem httpsPfx_eq (host : Host) (env : Env) (c : Config) :
    httpsPfx host env c =
      if env.HTTPS_PFX_PASSPHRASE.truthy && env.HTTPS_PFX_FILE_PATH.truthy then
        match host.files env.HTTPS_PFX_FILE_PATH.toText with
        | .error err =>
          .error (.error ("No such file or directory " ++ err.pathText ++
            " for PFX file, falling back to HTTP"))
        | .ok pfx => .ok (setHttps c ⟨none, none, some env.HTTPS_PFX_PASSPHRASE, some pfx⟩)
      else .ok c := by
  unfold httpsPfx
  split
  · cases h1 : host.files env.HTTPS_PFX_FILE_PATH.toText with
    | error err => simp [fsp.readFile, h1, bind, Except.bind]
    | ok pfx => simp [fsp.readFile, h1, bind, Except.bind, pure, Except.pure]
  · rfl

/-- The certificate and key branch, when it returns, changes `fastifyInit.https`
only. -/
theorem httpsCertKey_ok {host : Host} {env : Env} {c c1 : Config}
    (h : httpsCertKey host env c = .ok c1) :
    c1.jwt = c.jwt ∧ c1.cors = c.cors ∧ c1.fastify = c.fastify ∧
    c1.fastifyInit.logger = c.fastifyInit.logger ∧ c1.authKeys = c.authKeys := by
  rw [httpsCertKey_eq] at h
  split at h
  · split at h
    · cases h
    · split at h
      · cases h
      · cases h; exact ⟨rfl, rfl, rfl, rfl, rfl⟩
  · cases h; exact ⟨rfl, rfl, rfl, rfl, rfl⟩

/-- The PFX branch, when it returns, changes `fastifyInit.https` only; when the
passphrase and the path are both truthy it sets `https` to a new object with
the two PFX fields. -/
theorem httpsPfx_ok {host : Host} {env : Env} {c c1 : Config}
    (h : httpsPfx host env c = .ok c1) :
    c1.jwt = c.jwt ∧ c1.cors = c.cors ∧ c1.fastify = c.fastify ∧
    c1.fastifyInit.logger = c.fastifyInit.logger ∧ c1.authKeys = c.authKeys ∧
    ((env.HTTPS_PFX_PASSPHRASE.truthy && env.HTTPS_PFX_FILE_PATH.truthy) = true →
      ∃ pfx, host.files env.HTTPS_PFX_FILE_PATH.toText = .ok pfx ∧
        c1.fastifyInit.https = some ⟨none, none, some env.HTTPS_PFX_PASSPHRASE, some pfx⟩) := by
  rw [httpsPfx_eq] at h
  split at h
  · split at h
    · cases h
    · rename_i pfx hp
      cases h
      exact ⟨rfl, rfl, rfl, rfl, rfl, fun _ => ⟨pfx, hp, rfl⟩⟩
  · rename_i hc
    cases h
    exact ⟨rfl, rfl, rfl, rfl, rfl, fun ht => absurd ht hc⟩

/-- What a resolved configuration holds. -/
theorem resolve_ok {host : Host} {env : Env} {cfg : Config}
    (h : resolve host env = .ok cfg) :
    ∃ c c1, beforeHttps host.pkg env = .ok c ∧ httpsCertKey host env c = .ok c1 ∧
      httpsPfx host env c1 = .ok cfg ∧
      cfg.jwt = c.jwt ∧ cfg.cors = c.cors ∧ cfg.fastify = c.fastify ∧
      cfg.fastifyInit.logger = c.fastifyInit.logger ∧ cfg.authKeys = c.authKeys := by
  unfold resolve at h
  cases h0 : beforeHttps host.pkg env with
  | error e => simp [h0, bind, Except.bind] at h
  | ok c =>
    cases h1 : httpsCertKey host env c with
    | error e => simp [h0, h1, bind, Except.bind] at h
    | ok c1 =>
      simp only [h0, h1, bind, Except.bind] at h
      obtain ⟨a1, a2, a3, a4, a5⟩ := httpsCertKey_ok h1
      obtain ⟨b1, b2, b3, b4, b5, _⟩ := httpsPfx_ok h
      exact ⟨c, c1, rfl, h1, h, by rw [b1, a1], by rw [b2, a2], by rw [b3, a3],
        by rw [b4, a4], by rw [b5, a5]⟩

/-- The steps after validation, given that the steps before the HTTPS branches
return. -/
theorem resolve_of_before {host : Host} {env : Env} {c : Config}
    (h : beforeHttps host.pkg env = .ok c) :
    resolve host env =
      match httpsCertKey host env c with
      | .error e => .error e
      | .ok c1 => httpsPfx host env c1 := by
  unfold resolve
  cases h1 : httpsCertKey host env c <;> simp [h, h1, bind, Except.bind]


/-- The steps after validation throw when the steps before the HTTPS branches do. -/
theorem resolve_of_before_error {host : Host} {env : Env} {e : Thrown}
    (h : beforeHttps host.pkg env = .error e) : resolve host env = .error e := by
  simp [resolve, h, bind, Except.bind]

/-- No configuration is resolved without `JWT_ALLOWED_ALGO_ARRAY`. -/
theorem getConfig_of_algorithms_absent (host : Host) (raw : String → Option String)
    (h : raw "JWT_ALLOWED_ALGO_ARRAY" = none) (cfg : Config) :
    getConfig host raw ≠ .ok cfg := by
  intro hc
  obtain ⟨env, hv, hr⟩ := getConfig_ok hc
  obtain ⟨c, _, hb, _⟩ := resolve_ok hr
  have hp := (beforeHttps_ok hb).1
  rw [(envSchema_ok hv).2.2.2.1] at hp
  simp [nullable, h] at hp
  cases hp

/-- The text of a parsed environment string is the string. -/
theorem parse_str (s : String) :
    JSON.parse (.str s) = match JSON.value s with
      | some v => .ok v
      | none => .error .syntaxError := rfl

/-- Adding a string to a set of strings. -/
theorem setAdd_strings (keys : List String) (v : String) :
    setAdd (keys.map JsValue.string) (.string v) =
      (if v ∈ keys then keys else keys ++ [v]).map JsValue.string := by
  unfold setAdd
  have h : (keys.map JsValue.string).any (sameValueZero (.string v)) = decide (v ∈ keys) := by
    induction keys with
    | nil => simp
    | cons a rest ih =>
      simp only [List.map_cons, List.any_cons, ih, sameValueZero, List.mem_cons]
      by_cases hva : v = a <;> simp [hva]
  rw [h]
  by_cases hm : v ∈ keys <;> simp [hm]

/-- The loop over elements that are objects with a string `value`. -/
theorem forEach_strings (items : List JsValue) (vals : List String)
    (h : List.Forall₂ (fun item v => ∃ props, item = JsValue.object props ∧
      props.lookup "value" = some (JsValue.string v)) items vals) :
    ∀ keys : List String,
      List.foldlM (fun keys element => do
          let v ← elementValue element
          pure (setAdd keys v)) (keys.map JsValue.string) items =
        (.ok ((vals.foldl (fun ks v => if v ∈ ks then ks else ks ++ [v]) keys).map
          JsValue.string) : Except Thrown (List JsValue)) := by
  induction h with
  | nil => intro keys; rfl
  | cons hx _ ih =>
    intro keys
    obtain ⟨props, rfl, hl⟩ := hx
    simp only [List.foldlM, elementValue, hl, bind, Except.bind, pure, Except.pure,
      List.foldl_cons, setAdd_strings]
    exact ih _

/-- Insertion without repetition keeps a list free of duplicates and adds
exactly the inserted values. -/
theorem insertAll_spec (vals : List String) :
    ∀ keys : List String, keys.Nodup →
      (vals.foldl (fun ks v => if v ∈ ks then ks else ks ++ [v]) keys).Nodup ∧
      ∀ x, x ∈ vals.foldl (fun ks v => if v ∈ ks then ks else ks ++ [v]) keys ↔
        x ∈ keys ∨ x ∈ vals := by
  induction vals with
  | nil => intro keys hk; simp [hk]
  | cons v rest ih =>
    intro keys hk
    simp only [List.foldl_cons]
    by_cases hm : v ∈ keys
    · simp only [hm, if_true]
      obtain ⟨h1, h2⟩ := ih keys hk
      refine ⟨h1, fun x => ?_⟩
      rw [h2 x, List.mem_cons]
      constructor
      · rintro (h | h)
        · exact Or.inl h
        · exact Or.inr (Or.inr h)
      · rintro (h | h | h)
        · exact Or.inl h
        · exact Or.inl (h ▸ hm)
        · exact Or.inr h
    · simp only [hm, if_false]
      have hk1 : (keys ++ [v]).Nodup := by
        rw [List.nodup_append]
        refine ⟨hk, List.nodup_singleton v, ?_⟩
        intro a ha hb
        rw [List.mem_singleton] at hb
        exact hm (hb ▸ ha)
      obtain ⟨h1, h2⟩ := ih (keys ++ [v]) hk1
      refine ⟨h1, fun x => ?_⟩
      rw [h2 x, List.mem_append, List.mem_singleton, List.mem_cons]
      tauto

/-- A set variable is a truthy string in the validated environment. -/
theorem nullable_truthy {raw : String → Option String} {k s : String}
    (h : raw k = some s) (hs : s ≠ "") :
    nullable raw k = .str s ∧ (nullable raw k).truthy = true ∧ (nullable raw k).toText = s := by
  simp [nullable, h, EnvStr.truthy, EnvStr.toText, hs]

/-- The loop over elements that are objects, with or without a `value`. -/
theorem forEach_objects (items vs : List JsValue)
    (h : List.Forall₂ (fun item v => ∃ props, item = JsValue.object props ∧
      v = (props.lookup "value").getD JsValue.undefined) items vs) :
    ∀ keys : List JsValue,
      List.foldlM (fun keys element => do
          let v ← elementValue element
          pure (setAdd keys v)) keys items =
        (.ok (vs.foldl setAdd keys) : Except Thrown (List JsValue)) := by
  induction h with
  | nil => intro keys; rfl
  | cons hx _ ih =>
    intro keys
    obtain ⟨props, rfl, rfl⟩ := hx
    cases hl : props.lookup "value" with
    | none =>
      simp only [List.foldlM, elementValue, hl, bind, Except.bind, pure, Except.pure,
        List.foldl_cons, Option.getD]
      exact ih _
    | some v =>
      simp only [List.foldlM, elementValue, hl, bind, Except.bind, pure, Except.pure,
        List.foldl_cons, Option.getD]
      exact ih _

/-- A coerced number comes from a non-empty string and is not `NaN`. -/
theorem coerceNumber_some {s : String} {n : JsNumber} (h : coerceNumber s = some n) :
    s ≠ "" ∧ toNumber s = n ∧ n ≠ .nan := by
  unfold coerceNumber at h
  split at h
  · cases h
  · rename_i hs
    split at h
    · cases h
    · rename_i hn
      cases h
      exact ⟨hs, rfl, fun e => hn e⟩

/-- The expression `element.value` throws nothing but a `TypeError`. -/
theorem elementValue_cases (x : JsValue) :
    elementValue x = .error .typeError ∨ ∃ v, elementValue x = .ok v := by
  cases x with
  | undefined => exact Or.inl rfl
  | null => exact Or.inl rfl
  | bool b => exact Or.inr ⟨_, rfl⟩
  | number n => exact Or.inr ⟨_, rfl⟩
  | string s => exact Or.inr ⟨_, rfl⟩
  | array items => exact Or.inr ⟨_, rfl⟩
  | object props =>
    cases h : props.lookup "value" with
    | none => exact Or.inr ⟨.undefined, by simp [elementValue, h]⟩
    | some v => exact Or.inr ⟨v, by simp [elementValue, h]⟩

/-- The loop throws a `TypeError` when an element is `null`. -/
theorem forEach_null (items : List JsValue) (h : JsValue.null ∈ items) :
    ∀ keys : List JsValue,
      List.foldlM (fun keys element => do
          let v ← elementValue element
          pure (setAdd keys v)) keys items =
        (.error .typeError : Except Thrown (List JsValue)) := by
  induction items with
  | nil => simp at h
  | cons x rest ih =>
    intro keys
    rcases elementValue_cases x with hx | ⟨v, hx⟩
    · simp [List.foldlM, hx, bind, Except.bind]
    · have hrest : JsValue.null ∈ rest := by
        rcases List.mem_cons.1 h with e | e
        · rw [← e] at hx; cases hx
        · exact e
      simp only [List.foldlM, hx, bind, Except.bind, pure, Except.pure]
      exact ih hrest _

/-! ## The claims -/

/-- C1 (the code departs from the claim): for every raw environment that sets
only `NODE_ENV`, `SERVICE_HOST` and a numeric `SERVICE_PORT`, validation passes
and `getConfig` then throws the `SyntaxError` of `JSON.parse(undefined)`, so no
configuration is returned. -/
theorem C1_minimal_environment_throws (host : Host) (raw : String → Option String)
    (nodeEnv serviceHost port : String) (n : JsNumber)
    (h1 : raw "NODE_ENV" = some nodeEnv) (h2 : raw "SERVICE_HOST" = some serviceHost)
    (h3 : raw "SERVICE_PORT" = some port) (hnum : coerceNumber port = some n)
    (hrest : ∀ k, k ∈ schema.map Prod.fst → k ∉ required → raw k = none) :
    getConfig host raw = .error .syntaxError := by
  have hL : raw "LOG_LEVEL" = none := hrest _ (by decide) (by decide)
  have hF : raw "LOG_ROTATION_FREQUENCY" = none := hrest _ (by decide) (by decide)
  have hJ : raw "JWKS_ENDPOINT" = none := hrest _ (by decide) (by decide)
  have hA : raw "JWT_ALLOWED_ALGO_ARRAY" = none := hrest _ (by decide) (by decide)
  have hv : validationErrors host.isUri raw = [] := by
    simp [validationErrors, requiredErrors, required, schema, propErrors, h1, h2, h3, hL, hF,
      hJ, hnum]
  have he : ∃ env, envSchema host.isUri raw = .ok env := by
    unfold envSchema
    simp [hv, h1, h2, h3, hnum]
  obtain ⟨env, he⟩ := he
  rw [getConfig_of_env he]
  apply resolve_of_before_error
  apply beforeHttps_of_error
  rw [(envSchema_ok he).2.2.2.1]
  simp only [nullable, hA]
  rfl

/-- C1, at the environment `NODE_ENV=development`, `SERVICE_HOST=localhost`,
`SERVICE_PORT=8204`. -/
theorem C1_minimal_environment_throws_witness :
    getConfig exampleHost minimalEnv = .error .syntaxError :=
  C1_minimal_environment_throws exampleHost minimalEnv "development" "localhost" "8204"
    (.fin false 8204 0) rfl rfl rfl rfl
    (fun k _ hk => by
      simp only [required, List.mem_cons, List.mem_singleton, List.not_mem_nil, or_false,
        not_or] at hk
      have e1 : (k == "NODE_ENV") = false := by simpa using hk.1
      have e2 : (k == "SERVICE_HOST") = false := by simpa using hk.2.1
      have e3 : (k == "SERVICE_PORT") = false := by simpa using hk.2.2
      simp only [minimalEnv, envOf, List.lookup, e1, e2, e3])

/-- C2: when a required variable is absent `getConfig` throws the validation
error, and that error names every absent required variable, in its message and
in its `errors`. -/
theorem C2_missing_required_all_named (host : Host) (raw : String → Option String)
    (hmiss : ∃ k ∈ required, raw k = none) :
    ∃ msg errors, getConfig host raw = .error (.validation msg errors) ∧
      ∀ k ∈ required, raw k = none →
        mentions msg k ∧ ∃ e ∈ errors, e.keyword = "required" ∧ e.property = k := by
  have hmem : ∀ k ∈ required, raw k = none →
      (⟨"required", k, "should have required property \x27" ++ k ++ "\x27"⟩ : AjvError) ∈
        validationErrors host.isUri raw := by
    intro k hk hr
    apply List.mem_append_left
    exact List.mem_map.2 ⟨k, List.mem_filter.2 ⟨hk, by simp [hr]⟩, rfl⟩
  have hne : validationErrors host.isUri raw ≠ [] := by
    obtain ⟨k, hk, hr⟩ := hmiss
    exact List.ne_nil_of_mem (hmem k hk hr)
  refine ⟨_, _, getConfig_of_invalid (envSchema_of_errors host.isUri raw hne), ?_⟩
  intro k hk hr
  refine ⟨?_, _, hmem k hk hr, rfl, rfl⟩
  exact intercalate_mentions "\n" _ _ k (List.mem_map.2 ⟨_, hmem k hk hr, rfl⟩)
    (mentions_append_mid _ _ _)

/-- C2, at an environment without `SERVICE_PORT`: the error mentions
`SERVICE_PORT`. -/
theorem C2_missing_required_all_named_witness :
    ∃ msg errors, getConfig exampleHost noPortEnv = .error (.validation msg errors) ∧
      mentions msg "SERVICE_PORT" :=
  match C2_missing_required_all_named exampleHost noPortEnv
      ⟨"SERVICE_PORT", by decide, rfl⟩ with
  | ⟨msg, errors, h, hall⟩ => ⟨msg, errors, h, (hall "SERVICE_PORT" (by decide) rfl).1⟩


/-- C3: for every validated environment, `cors.origin` of the resolved
configuration is `true` for `"true"`, `false` for `"false"`, `false` when
`CORS_ORIGIN` is absent, `null` or empty, and the string itself otherwise. -/
theorem C3_cors_origin (host : Host) (env : Env) (cfg : Config)
    (h : resolve host env = .ok cfg) :
    (env.CORS_ORIGIN = .str "true" → cfg.cors.origin = .bool true) ∧
    (env.CORS_ORIGIN = .str "false" → cfg.cors.origin = .bool false) ∧
    (env.CORS_ORIGIN = .undefined ∨ env.CORS_ORIGIN = .null ∨ env.CORS_ORIGIN = .str "" →
      cfg.cors.origin = .bool false) ∧
    (∀ s, env.CORS_ORIGIN = .str s → s ≠ "" → s ≠ "true" → s ≠ "false" →
      cfg.cors.origin = .string s) := by
  obtain ⟨c, _, hb, _, _, _, hcors, _⟩ := resolve_ok h
  have ho := (beforeHttps_ok hb).2.1
  rw [hcors, ho]
  refine ⟨fun e => ?_, fun e => ?_, fun e => ?_, fun s e h0 h1 h2 => ?_⟩
  · rw [e]; rfl
  · rw [e]; rfl
  · rcases e with e | e | e <;> rw [e] <;> rfl
  · rw [e]
    simp [parseCorsParameter, h1, h2, jsOr, EnvStr.toJs, JsValue.truthy, h0]

/-- C3, at `CORS_ORIGIN=https://a.example`. -/
theorem C3_cors_origin_witness :
    envSchema exampleHost.isUri (envWith [("CORS_ORIGIN", "https://a.example")])
        = .ok (validatedWith (.str "https://a.example") .undefined) ∧
      ∃ cfg, resolve exampleHost (validatedWith (.str "https://a.example") .undefined)
          = .ok cfg ∧ cfg.cors.origin = .string "https://a.example" :=
  ⟨rfl, _, rfl,
    (C3_cors_origin exampleHost (validatedWith (.str "https://a.example") .undefined) _
      rfl).2.2.2 "https://a.example" rfl (by decide) (by decide) (by decide)⟩

/-- C4: when `AUTH_BEARER_TOKEN_ARRAY` is a JSON array of objects that each have
a string `value`, the resolved `authKeys` holds exactly those values, each once:
its size is the number of distinct values. -/
theorem C4_authKeys_distinct_values (host : Host) (raw : String → Option String)
    (s : String) (items : List JsValue) (vals : List String) (cfg : Config)
    (hraw : raw "AUTH_BEARER_TOKEN_ARRAY" = some s)
    (hjson : JSON.value s = some (.array items))
    (hvals : List.Forall₂ (fun item v => ∃ props, item = JsValue.object props ∧
      props.lookup "value" = some (JsValue.string v)) items vals)
    (hcfg : getConfig host raw = .ok cfg) :
    ∃ keys : List String, cfg.authKeys = some (keys.map JsValue.string) ∧ keys.Nodup ∧
      (∀ v, v ∈ keys ↔ v ∈ vals) ∧ keys.length = vals.toFinset.card := by
  obtain ⟨env, hv, hr⟩ := getConfig_ok hcfg
  obtain ⟨c, _, hb, _, _, _, _, _, _, hkeys⟩ := resolve_ok hr
  have hauth := (envSchema_ok hv).2.2.1
  simp only [nullable, hraw] at hauth
  have hne : s ≠ "" := by
    intro hs
    rw [hs, show JSON.value "" = none from rfl] at hjson
    cases hjson
  have ht : env.AUTH_BEARER_TOKEN_ARRAY.truthy = true := by
    simp [hauth, EnvStr.truthy, hne]
  obtain ⟨parsed, keys0, hp, hf, hk⟩ := (beforeHttps_ok hb).2.2.2.2.2.2 ht
  rw [hauth, parse_str, hjson] at hp
  cases hp
  have hloop := forEach_strings items vals hvals []
  simp only [List.map_nil] at hloop
  simp only [forEachAdd] at hf
  rw [hloop] at hf
  cases hf
  obtain ⟨hn, hm⟩ := insertAll_spec vals [] List.nodup_nil
  refine ⟨_, hkeys.trans hk, hn, fun v => by simpa using hm v, ?_⟩
  rw [← List.toFinset_card_of_nodup hn]
  congr 1
  ext v
  simpa using hm v


/-- C4, at the list `[{"value":"a"},{"value":"a"},{"value":"b"}]`: the keys are
`"a"` and `"b"`, two of them. -/
theorem C4_authKeys_distinct_values_witness :
    ∃ cfg, getConfig exampleHost (envWith [("AUTH_BEARER_TOKEN_ARRAY", tokensText)]) = .ok cfg ∧
      cfg.authKeys = some [.string "a", .string "b"] ∧
      ∃ keys : List String, cfg.authKeys = some (keys.map JsValue.string) ∧ keys.Nodup ∧
        (∀ v, v ∈ keys ↔ v ∈ ["a", "a", "b"]) ∧ keys.length = 2 :=
  ⟨_, rfl, rfl,
    C4_authKeys_distinct_values exampleHost (envWith [("AUTH_BEARER_TOKEN_ARRAY", tokensText)])
      tokensText
      [.object [("value", .string "a")], .object [("value", .string "a")],
        .object [("value", .string "b")]]
      ["a", "a", "b"] _ rfl rfl
      (.cons ⟨_, rfl, rfl⟩ (.cons ⟨_, rfl, rfl⟩ (.cons ⟨_, rfl, rfl⟩ .nil))) rfl⟩


set_option maxRecDepth 8000 in
/-- C5 as stated fails.  With the certificate path a directory and the key
readable, the read is rejected with an error that has no `path`, and the message
of the thrown `Error` reads `undefined` where the claim expects the certificate
path.  With a missing certificate and no `SERVICE_PORT`, the error thrown is the
validation error, which does not contain the certificate path either. -/
theorem C5_counterexample :
    (exampleHost.files "/tls" = .error ⟨none⟩ ∧ exampleHost.files "/tls/key.pem" = .ok [3, 4] ∧
      getConfig exampleHost certDirectoryEnv = .error (.error
        "No such file or directory undefined for SSL cert/key, falling back to HTTP") ∧
      ¬ mentions "No such file or directory undefined for SSL cert/key, falling back to HTTP"
        "/tls") ∧
    (exampleHost.files "/tls/missing.pem" = .error ⟨some "/tls/missing.pem"⟩ ∧
      getConfig exampleHost certMissingNoPortEnv = .error (.validation
        "should have required property \x27SERVICE_PORT\x27"
        [⟨"required", "SERVICE_PORT", "should have required property \x27SERVICE_PORT\x27"⟩]) ∧
      ¬ mentions "should have required property \x27SERVICE_PORT\x27" "/tls/missing.pem") :=
  ⟨⟨rfl, rfl, rfl, by unfold mentions; decide⟩, ⟨rfl, rfl, by unfold mentions; decide⟩⟩

/-- C5, amended: when the certificate and key paths are both set and the read of
the certificate is rejected, `getConfig` returns no configuration, and once the
read is reached (validation and the steps before the HTTPS branches return) it
throws an `Error` whose message contains the text of `err.path` of the
rejection: the certificate path when the error carries it, as the error of a
file that cannot be opened does.  The same holds for the key when the
certificate was read, and for the PFX file when the certificate and key branch
returned. -/
theorem C5_read_error_aborts (host : Host) (raw : String → Option String) :
    (∀ certPath keyPath err,
      raw "HTTPS_SSL_CERT_PATH" = some certPath → certPath ≠ "" →
      raw "HTTPS_SSL_KEY_PATH" = some keyPath → keyPath ≠ "" →
      host.files certPath = .error err →
      (∀ cfg, getConfig host raw ≠ .ok cfg) ∧
      ((∃ env config, envSchema host.isUri raw = .ok env ∧
          beforeHttps host.pkg env = .ok config) →
        ∃ msg, getConfig host raw = .error (.error msg) ∧ mentions msg err.pathText ∧
          (err.path = some certPath → mentions msg certPath))) ∧
    (∀ certPath keyPath cert err,
      raw "HTTPS_SSL_CERT_PATH" = some certPath → certPath ≠ "" →
      raw "HTTPS_SSL_KEY_PATH" = some keyPath → keyPath ≠ "" →
      host.files certPath = .ok cert → host.files keyPath = .error err →
      (∀ cfg, getConfig host raw ≠ .ok cfg) ∧
      ((∃ env config, envSchema host.isUri raw = .ok env ∧
          beforeHttps host.pkg env = .ok config) →
        ∃ msg, getConfig host raw = .error (.error msg) ∧ mentions msg err.pathText ∧
          (err.path = some keyPath → mentions msg keyPath))) ∧
    (∀ passphrase pfxPath err,
      raw "HTTPS_PFX_PASSPHRASE" = some passphrase → passphrase ≠ "" →
      raw "HTTPS_PFX_FILE_PATH" = some pfxPath → pfxPath ≠ "" →
      host.files pfxPath = .error err →
      (∀ cfg, getConfig host raw ≠ .ok cfg) ∧
      ((∃ env config config1, envSchema host.isUri raw = .ok env ∧
          beforeHttps host.pkg env = .ok config ∧
          httpsCertKey host env config = .ok config1) →
        ∃ msg, getConfig host raw = .error (.error msg) ∧ mentions msg err.pathText ∧
          (err.path = some pfxPath → mentions msg pfxPath))) := by
  have htext : ∀ (err : FsError) (p : String), err.path = some p → err.pathText = p := by
    intro err p h
    simp [FsError.pathText, h]
  refine ⟨?_, ?_, ?_⟩
  · intro certPath keyPath err hc hcn hk hkn hfile
    have key : ∀ env config, envSchema host.isUri raw = .ok env →
        httpsCertKey host env config = .error (.error ("No such file or directory " ++
          err.pathText ++ " for SSL cert/key, falling back to HTTP")) := by
      intro env config hv
      obtain ⟨_, _, _, _, e1, e2, _, _⟩ := envSchema_ok hv
      obtain ⟨_, t1, x1⟩ := nullable_truthy hc hcn
      obtain ⟨_, t2, _⟩ := nullable_truthy hk hkn
      rw [httpsCertKey_eq, e1, e2, t1, t2, x1]
      simp [hfile]
    refine ⟨fun cfg hcfg => ?_, ?_⟩
    · obtain ⟨env, hv, hr⟩ := getConfig_ok hcfg
      obtain ⟨c, c1, _, h1, _⟩ := resolve_ok hr
      rw [key env c hv] at h1
      cases h1
    · rintro ⟨env, config, hv, hb⟩
      refine ⟨"No such file or directory " ++ err.pathText ++
        " for SSL cert/key, falling back to HTTP", ?_, mentions_append_mid _ _ _, ?_⟩
      · rw [getConfig_of_env hv, resolve_of_before hb, key env config hv]
      · intro hp
        rw [htext err certPath hp]
        exact mentions_append_mid _ certPath _
  · intro certPath keyPath cert err hc hcn hk hkn hcert hfile
    have key : ∀ env config, envSchema host.isUri raw = .ok env →
        httpsCertKey host env config = .error (.error ("No such file or directory " ++
          err.pathText ++ " for SSL cert/key, falling back to HTTP")) := by
      intro env config hv
      obtain ⟨_, _, _, _, e1, e2, _, _⟩ := envSchema_ok hv
      obtain ⟨_, t1, x1⟩ := nullable_truthy hc hcn
      obtain ⟨_, t2, x2⟩ := nullable_truthy hk hkn
      rw [httpsCertKey_eq, e1, e2, t1, t2, x1, x2]
      simp [hfile, hcert]
    refine ⟨fun cfg hcfg => ?_, ?_⟩
    · obtain ⟨env, hv, hr⟩ := getConfig_ok hcfg
      obtain ⟨c, c1, _, h1, _⟩ := resolve_ok hr
      rw [key env c hv] at h1
      cases h1
    · rintro ⟨env, config, hv, hb⟩
      refine ⟨"No such file or directory " ++ err.pathText ++
        " for SSL cert/key, falling back to HTTP", ?_, mentions_append_mid _ _ _, ?_⟩
      · rw [getConfig_of_env hv, resolve_of_before hb, key env config hv]
      · intro hp
        rw [htext err keyPath hp]
        exact mentions_append_mid _ keyPath _
  · intro passphrase pfxPath err hp hpn hf hfn hfile
    have key : ∀ env config, envSchema host.isUri raw = .ok env →
        httpsPfx host env config = .error (.error ("No such file or directory " ++
          err.pathText ++ " for PFX file, falling back to HTTP")) := by
      intro env config hv
      obtain ⟨_, _, _, _, _, _, e1, e2⟩ := envSchema_ok hv
      obtain ⟨_, t1, _⟩ := nullable_truthy hp hpn
      obtain ⟨_, t2, x2⟩ := nullable_truthy hf hfn
      rw [httpsPfx_eq, e1, e2, t1, t2, x2]
      simp [hfile]
    refine ⟨fun cfg hcfg => ?_, ?_⟩
    · obtain ⟨env, hv, hr⟩ := getConfig_ok hcfg
      obtain ⟨c, c1, _, _, h2, _⟩ := resolve_ok hr
      rw [key env c1 hv] at h2
      cases h2
    · rintro ⟨env, config, config1, hv, hb, h1⟩
      refine ⟨"No such file or directory " ++ err.pathText ++
        " for PFX file, falling back to HTTP", ?_, mentions_append_mid _ _ _, ?_⟩
      · rw [getConfig_of_env hv, resolve_of_before hb, h1]
        exact key env config1 hv
      · intro hq
        rw [htext err pfxPath hq]
        exact mentions_append_mid _ pfxPath _

/-- C5 amended, at a missing certificate, a missing key and a missing PFX file:
each read is rejected with an error that carries the path, and the message
contains the path of the file that could not be read. -/
theorem C5_read_error_aborts_witness :
    (∃ msg, getConfig exampleHost certMissingEnv = .error (.error msg) ∧
      mentions msg "/tls/missing.pem") ∧
    (∃ msg, getConfig exampleHost keyMissingEnv = .error (.error msg) ∧
      mentions msg "/tls/missing.key") ∧
    (∃ msg, getConfig exampleHost pfxMissingEnv = .error (.error msg) ∧
      mentions msg "/tls/missing.pfx") :=
  ⟨match ((C5_read_error_aborts exampleHost certMissingEnv).1 "/tls/missing.pem"
      "/tls/key.pem" ⟨some "/tls/missing.pem"⟩ rfl (by decide) rfl (by decide) rfl).2
      ⟨_, _, rfl, rfl⟩ with
    | ⟨msg, h, _, hm⟩ => ⟨msg, h, hm rfl⟩,
    match ((C5_read_error_aborts exampleHost keyMissingEnv).2.1 "/tls/cert.pem"
      "/tls/missing.key" [1, 2] ⟨some "/tls/missing.key"⟩ rfl (by decide) rfl (by decide)
      rfl rfl).2 ⟨_, _, rfl, rfl⟩ with
    | ⟨msg, h, _, hm⟩ => ⟨msg, h, hm rfl⟩,
    match ((C5_read_error_aborts exampleHost pfxMissingEnv).2.2 "secret"
      "/tls/missing.pfx" ⟨some "/tls/missing.pfx"⟩ rfl (by decide) rfl (by decide) rfl).2
      ⟨_, _, _, rfl, rfl, rfl⟩ with
    | ⟨msg, h, _, hm⟩ => ⟨msg, h, hm rfl⟩⟩

/-- C6: when the certificate path, the key path, the PFX passphrase and the PFX
path are all set and the three files can be read, the certificate and key
branch first builds its `cert`/`key` object, and the resolved `https` entry is
the object built last by the PFX branch: `pfx` and `passphrase`, with no `cert`
and no `key`. -/
theorem C6_pfx_replaces_cert_key (host : Host) (raw : String → Option String)
    (certPath keyPath passphrase pfxPath : String) (cert key pfx : Buffer) (cfg : Config)
    (h1 : raw "HTTPS_SSL_CERT_PATH" = some certPath) (n1 : certPath ≠ "")
    (h2 : raw "HTTPS_SSL_KEY_PATH" = some keyPath) (n2 : keyPath ≠ "")
    (h3 : raw "HTTPS_PFX_PASSPHRASE" = some passphrase) (n3 : passphrase ≠ "")
    (h4 : raw "HTTPS_PFX_FILE_PATH" = some pfxPath) (n4 : pfxPath ≠ "")
    (hcert : host.files certPath = .ok cert) (hkey : host.files keyPath = .ok key)
    (hpfx : host.files pfxPath = .ok pfx)
    (hcfg : getConfig host raw = .ok cfg) :
    cfg.fastifyInit.https =
        some { cert := none, key := none, passphrase := some (.str passphrase), pfx := some pfx } ∧
      ∃ env config, envSchema host.isUri raw = .ok env ∧
        beforeHttps host.pkg env = .ok config ∧
        httpsCertKey host env config = .ok (setHttps config
          { cert := some cert, key := some key, passphrase := none, pfx := none }) := by
  obtain ⟨env, hv, hr⟩ := getConfig_ok hcfg
  obtain ⟨c, c1, hb, hck, hp, _⟩ := resolve_ok hr
  obtain ⟨_, _, _, _, e1, e2, e3, e4⟩ := envSchema_ok hv
  obtain ⟨_, t1, x1⟩ := nullable_truthy h1 n1
  obtain ⟨_, t2, x2⟩ := nullable_truthy h2 n2
  obtain ⟨s3, t3, _⟩ := nullable_truthy h3 n3
  obtain ⟨_, t4, x4⟩ := nullable_truthy h4 n4
  refine ⟨?_, env, c, hv, hb, ?_⟩
  · obtain ⟨b, hb1, hb2⟩ := (httpsPfx_ok hp).2.2.2.2.2 (by rw [e3, e4, t3, t4]; rfl)
    rw [e4, x4, hpfx] at hb1
    cases hb1
    rw [hb2, e3, s3]
  · rw [httpsCertKey_eq, e1, e2, t1, t2, x1, x2]
    simp [hcert, hkey]

/-- C6, at an environment with readable certificate, key and PFX file. -/
theorem C6_pfx_replaces_cert_key_witness :
    ∃ cfg, getConfig exampleHost bothTlsEnv = .ok cfg ∧
      cfg.fastifyInit.https =
        some { cert := none, key := none, passphrase := some (.str "secret"), pfx := some [5, 6, 7] } :=
  ⟨_, rfl, (C6_pfx_replaces_cert_key exampleHost bothTlsEnv "/tls/cert.pem" "/tls/key.pem"
    "secret" "/tls/bundle.pfx" [1, 2] [3, 4] [5, 6, 7] _ rfl (by decide) rfl (by decide) rfl
    (by decide) rfl (by decide) rfl rfl rfl rfl).1⟩


/-- C7 as stated fails: `"5"` and `"{}"` are valid JSON and not arrays, and
`getConfig` returns a configuration whose `allowedAlgorithms` is the number 5,
respectively the empty object. -/
theorem C7_counterexample :
    (JSON.value "5" = some (.number (.fin false 5 0)) ∧
      ∃ cfg, getConfig exampleHost (envWithAlgorithms "5") = .ok cfg ∧
        cfg.jwt.allowedAlgorithms = .number (.fin false 5 0)) ∧
    (JSON.value "\x7b\x7d" = some (.object []) ∧
      ∃ cfg, getConfig exampleHost (envWithAlgorithms "\x7b\x7d") = .ok cfg ∧
        cfg.jwt.allowedAlgorithms = .object []) :=
  ⟨⟨rfl, _, rfl, rfl⟩, ⟨rfl, _, rfl, rfl⟩⟩

/-- C7, amended: when `JWT_ALLOWED_ALGO_ARRAY` is present and is not valid JSON,
no configuration is returned and, validation having passed, `getConfig` throws
a `SyntaxError`; when it is valid JSON, array or not, the object literal is
built and `jwt.allowedAlgorithms` is the parsed value (for a JSON array of
strings, that list). -/
theorem C7_algorithms_parsed (host : Host) (raw : String → Option String) (s : String)
    (hraw : raw "JWT_ALLOWED_ALGO_ARRAY" = some s) :
    (JSON.value s = none →
      (∀ cfg, getConfig host raw ≠ .ok cfg) ∧
      (∀ env, envSchema host.isUri raw = .ok env → getConfig host raw = .error .syntaxError)) ∧
    (∀ v, JSON.value s = some v →
      (∀ env, envSchema host.isUri raw = .ok env →
        ∃ c, configLiteral host.pkg env = .ok c ∧ c.jwt.allowedAlgorithms = v) ∧
      (∀ cfg, getConfig host raw = .ok cfg → cfg.jwt.allowedAlgorithms = v)) := by
  have hparse : ∀ env, envSchema host.isUri raw = .ok env →
      JSON.parse env.JWT_ALLOWED_ALGO_ARRAY = match JSON.value s with
        | some v => .ok v
        | none => .error .syntaxError := by
    intro env hv
    rw [(envSchema_ok hv).2.2.2.1]
    simp only [nullable, hraw]
    rfl
  refine ⟨fun hnone => ⟨fun cfg hcfg => ?_, fun env hv => ?_⟩,
    fun v hsome => ⟨fun env hv => ?_, fun cfg hcfg => ?_⟩⟩
  · obtain ⟨env, hv, hr⟩ := getConfig_ok hcfg
    obtain ⟨c, _, hb, _⟩ := resolve_ok hr
    have hp := (beforeHttps_ok hb).1
    rw [hparse env hv, hnone] at hp
    cases hp
  · rw [getConfig_of_env hv]
    apply resolve_of_before_error
    apply beforeHttps_of_error
    rw [hparse env hv, hnone]
  · apply configLiteral_of_parse
    rw [hparse env hv, hsome]
  · obtain ⟨env, hv, hr⟩ := getConfig_ok hcfg
    obtain ⟨c, _, hb, _, _, hjwt, _⟩ := resolve_ok hr
    have hp := (beforeHttps_ok hb).1
    rw [hparse env hv, hsome] at hp
    cases hp
    rw [hjwt]

/-- C7 amended, at `not-json` and at `["RS256","ES256"]`. -/
theorem C7_algorithms_parsed_witness :
    getConfig exampleHost (envWithAlgorithms "not-json") = .error .syntaxError ∧
    ∃ cfg, getConfig exampleHost (envWithAlgorithms "[\"RS256\",\"ES256\"]") = .ok cfg ∧
      cfg.jwt.allowedAlgorithms = .array [.string "RS256", .string "ES256"] :=
  ⟨((C7_algorithms_parsed exampleHost (envWithAlgorithms "not-json") "not-json" rfl).1 rfl).2
      _ rfl,
    _, rfl,
    ((C7_algorithms_parsed exampleHost (envWithAlgorithms "[\"RS256\",\"ES256\"]")
      "[\"RS256\",\"ES256\"]" rfl).2 (.array [.string "RS256", .string "ES256"]) rfl).2 _ rfl⟩

/-- C8 as stated fails: the second element of `[{"value":"a"},{"name":"b"}]` has
no `value`, and `getConfig` returns a configuration whose `authKeys` holds `"a"`
and `undefined`. -/
theorem C8_counterexample :
    JSON.value tokensNoValueText =
        some (.array [.object [("value", .string "a")], .object [("name", .string "b")]]) ∧
      ∃ cfg, getConfig exampleHost (envWith [("AUTH_BEARER_TOKEN_ARRAY", tokensNoValueText)])
          = .ok cfg ∧ cfg.authKeys = some [.string "a", .undefined] :=
  ⟨rfl, _, rfl, rfl⟩

/-- C8, amended: when `AUTH_BEARER_TOKEN_ARRAY` is set and is not valid JSON, the
bearer token block throws a `SyntaxError` and no configuration is returned;
when it is a JSON array with a `null` element, the block throws a `TypeError`
and no configuration is returned; when it is a JSON array of objects, the block
returns whether or not the objects have a `value`: each element contributes its
`value`, or `undefined` when it has none, to the set. -/
theorem C8_tokens_parsed (host : Host) (raw : String → Option String) (s : String)
    (hraw : raw "AUTH_BEARER_TOKEN_ARRAY" = some s) (hs : s ≠ "") :
    (JSON.value s = none →
      (∀ cfg, getConfig host raw ≠ .ok cfg) ∧
      (∀ env c, envSchema host.isUri raw = .ok env → authKeys env c = .error .syntaxError)) ∧
    (∀ items, JSON.value s = some (.array items) → JsValue.null ∈ items →
      (∀ cfg, getConfig host raw ≠ .ok cfg) ∧
      (∀ env c, envSchema host.isUri raw = .ok env → authKeys env c = .error .typeError)) ∧
    (∀ items vs, JSON.value s = some (.array items) →
      List.Forall₂ (fun item v => ∃ props, item = JsValue.object props ∧
        v = (props.lookup "value").getD JsValue.undefined) items vs →
      (∀ env c, envSchema host.isUri raw = .ok env →
        authKeys env c = .ok { c with authKeys := some (vs.foldl setAdd []) }) ∧
      (∀ cfg, getConfig host raw = .ok cfg → cfg.authKeys = some (vs.foldl setAdd []))) := by
  have henv : ∀ env, envSchema host.isUri raw = .ok env →
      env.AUTH_BEARER_TOKEN_ARRAY = .str s ∧ env.AUTH_BEARER_TOKEN_ARRAY.truthy = true := by
    intro env hv
    rw [(envSchema_ok hv).2.2.1]
    exact ⟨(nullable_truthy hraw hs).1, (nullable_truthy hraw hs).2.1⟩
  have hblock : ∀ env c, envSchema host.isUri raw = .ok env →
      authKeys env c = match JSON.value s with
        | none => .error .syntaxError
        | some parsed =>
          match forEachAdd parsed with
          | .error e => .error e
          | .ok keys => .ok { c with authKeys := some keys } := by
    intro env c hv
    rw [authKeys_of_set c (henv env hv).2, (henv env hv).1, parse_str]
    cases JSON.value s <;> rfl
  have hkeys : ∀ cfg, getConfig host raw = .ok cfg →
      ∃ parsed keys, JSON.value s = some parsed ∧ forEachAdd parsed = .ok keys ∧
        cfg.authKeys = some keys := by
    intro cfg hcfg
    obtain ⟨env, hv, hr⟩ := getConfig_ok hcfg
    obtain ⟨c, _, hb, _, _, _, _, _, _, hk⟩ := resolve_ok hr
    obtain ⟨parsed, keys, hp, hf, hc⟩ := (beforeHttps_ok hb).2.2.2.2.2.2 (henv env hv).2
    rw [(henv env hv).1, parse_str] at hp
    cases hj : JSON.value s with
    | none => rw [hj] at hp; cases hp
    | some w =>
      rw [hj] at hp
      cases hp
      exact ⟨_, keys, rfl, hf, hk.trans hc⟩
  refine ⟨fun hnone => ⟨fun cfg hcfg => ?_, fun env c hv => ?_⟩,
    fun items hsome hnull => ⟨fun cfg hcfg => ?_, fun env c hv => ?_⟩,
    fun items vs hsome hobj => ⟨fun env c hv => ?_, fun cfg hcfg => ?_⟩⟩
  · obtain ⟨parsed, _, hp, _⟩ := hkeys cfg hcfg
    rw [hnone] at hp
    cases hp
  · rw [hblock env c hv, hnone]
  · obtain ⟨parsed, keys, hp, hf, _⟩ := hkeys cfg hcfg
    rw [hsome] at hp
    cases hp
    simp only [forEachAdd, forEach_null items hnull] at hf
    cases hf
  · rw [hblock env c hv, hsome]
    simp only [forEachAdd, forEach_null items hnull]
  · rw [hblock env c hv, hsome]
    simp only [forEachAdd, forEach_objects items vs hobj]
  · obtain ⟨parsed, keys, hp, hf, hk⟩ := hkeys cfg hcfg
    rw [hsome] at hp
    cases hp
    simp only [forEachAdd, forEach_objects items vs hobj] at hf
    cases hf
    exact hk

/-- C8 amended, at `[{"value":"a"},{"name":"b"}]` and at `not-json`. -/
theorem C8_tokens_parsed_witness :
    (∃ cfg, getConfig exampleHost (envWith [("AUTH_BEARER_TOKEN_ARRAY", tokensNoValueText)])
        = .ok cfg ∧ cfg.authKeys = some [.string "a", .undefined]) ∧
    ∀ cfg, getConfig exampleHost (envWith [("AUTH_BEARER_TOKEN_ARRAY", "not-json")]) ≠ .ok cfg :=
  ⟨⟨_, rfl,
      ((C8_tokens_parsed exampleHost (envWith [("AUTH_BEARER_TOKEN_ARRAY", tokensNoValueText)])
        tokensNoValueText rfl (by decide)).2.2
        [.object [("value", .string "a")], .object [("name", .string "b")]]
        [.string "a", .undefined] rfl
        (.cons ⟨_, rfl, rfl⟩ (.cons ⟨_, rfl, rfl⟩ .nil))).2 _ rfl⟩,
    ((C8_tokens_parsed exampleHost (envWith [("AUTH_BEARER_TOKEN_ARRAY", "not-json")])
      "not-json" rfl (by decide)).1 rfl).1⟩

/-- C9 as stated fails: with `AUTH_BEARER_TOKEN_ARRAY` absent, `getConfig`
returns a configuration that has no `authKeys`. -/
theorem C9_counterexample :
    envWith [] "AUTH_BEARER_TOKEN_ARRAY" = none ∧
      ∃ cfg, getConfig exampleHost (envWith []) = .ok cfg ∧ cfg.authKeys = none :=
  ⟨rfl, _, rfl, rfl⟩

/-- C9, amended: for every validated environment on which resolution succeeds
and in which `AUTH_BEARER_TOKEN_ARRAY` is absent, `null` or empty, the resolved
configuration has no `authKeys`. -/
theorem C9_authKeys_absent_when_unset (host : Host) (env : Env) (cfg : Config)
    (h : resolve host env = .ok cfg)
    (hunset : env.AUTH_BEARER_TOKEN_ARRAY = .undefined ∨ env.AUTH_BEARER_TOKEN_ARRAY = .null ∨
      env.AUTH_BEARER_TOKEN_ARRAY = .str "") :
    cfg.authKeys = none := by
  obtain ⟨c, _, hb, _, _, _, _, _, _, hk⟩ := resolve_ok h
  rw [hk]
  apply (beforeHttps_ok hb).2.2.2.2.2.1
  rcases hunset with e | e | e <;> rw [e] <;> rfl

/-- C9 amended, at a validated environment whose `AUTH_BEARER_TOKEN_ARRAY` is
`null`. -/
theorem C9_authKeys_absent_when_unset_witness :
    ∃ cfg, resolve exampleHost (validatedWith .undefined .null) = .ok cfg ∧
      cfg.authKeys = none :=
  ⟨_, rfl, C9_authKeys_absent_when_unset exampleHost (validatedWith .undefined .null) _ rfl
    (Or.inr (Or.inl rfl))⟩

/-- C10 as stated fails: with `SERVICE_PORT` set to `-1`, `0` or `80.5`,
`getConfig` returns a configuration whose port is that number, which is not a
positive integer. -/
theorem C10_counterexample :
    (∃ cfg, getConfig exampleHost (envWithPort "-1") = .ok cfg ∧
      cfg.fastify.port = .fin true 1 0 ∧ cfg.fastify.port.isPositiveInteger = false) ∧
    (∃ cfg, getConfig exampleHost (envWithPort "0") = .ok cfg ∧
      cfg.fastify.port = .fin false 0 0 ∧ cfg.fastify.port.isPositiveInteger = false) ∧
    (∃ cfg, getConfig exampleHost (envWithPort "80.5") = .ok cfg ∧
      cfg.fastify.port = .fin false 161 1 ∧ cfg.fastify.port.isPositiveInteger = false) :=
  ⟨⟨_, rfl, rfl, rfl⟩, ⟨_, rfl, rfl, rfl⟩, ⟨_, rfl, rfl, rfl⟩⟩

/-- C10, amended: for every raw environment on which `getConfig` succeeds, the
resolved port is the binary64 number that the non-empty string `SERVICE_PORT`
denotes under numeric coercion, and it is not `NaN`. -/
theorem C10_port_is_coerced_number (host : Host) (raw : String → Option String) (cfg : Config)
    (h : getConfig host raw = .ok cfg) :
    ∃ s, raw "SERVICE_PORT" = some s ∧ s ≠ "" ∧ cfg.fastify.port = toNumber s ∧
      cfg.fastify.port ≠ .nan := by
  obtain ⟨env, hv, hr⟩ := getConfig_ok h
  obtain ⟨c, _, hb, _, _, _, _, hf, _⟩ := resolve_ok hr
  obtain ⟨s, hs, hn⟩ := (envSchema_ok hv).1
  obtain ⟨h1, h2, h3⟩ := coerceNumber_some hn
  have hp : cfg.fastify.port = env.SERVICE_PORT := by
    rw [hf]; exact (beforeHttps_ok hb).2.2.1
  exact ⟨s, hs, h1, by rw [hp, h2], by rw [hp]; exact h3⟩

/-- C10 amended, at `SERVICE_PORT=8204`. -/
theorem C10_port_is_coerced_number_witness :
    ∃ cfg, getConfig exampleHost (envWithPort "8204") = .ok cfg ∧
      ∃ s, envWithPort "8204" "SERVICE_PORT" = some s ∧ s ≠ "" ∧
        cfg.fastify.port = toNumber s ∧ cfg.fastify.port ≠ .nan :=
  ⟨_, rfl, C10_port_is_coerced_number exampleHost (envWithPort "8204") _ rfl⟩

end Ydh
